import Mathlib

/-!
Verification of the incremental extraction & coverage-tracking subsystem of the
marketing-analytics repository (the three extractors in `src/data/`:
`GA4_fin_v5.py`, `google_ads_fin_v5.py`, `search_console_extractor_fin_v5.py`).

The Python code is shallowly embedded: calendar dates (`datetime.date`) become a
`Date` structure with explicit Gregorian calendar arithmetic, the metadata
("coverage ledger") dictionaries become structures, the filesystem seen by
`write_parquet` becomes a partition-indexed map, and external API calls become
oracle functions passed in as parameters.  `while`-loops over date ranges are
embedded as fuel-indexed structural recursions; the fuel `dateFuel` is an
explicit upper bound on the number of remaining loop iterations, and the master
lemmas below show it is always sufficient.
-/

/-- A calendar date, mirroring Python's `datetime.date` (year, month, day). -/
structure Date where
  year : Nat
  month : Nat
  day : Nat
deriving DecidableEq, Repr

/-- Gregorian leap-year rule, as used by `datetime.date` arithmetic. -/
def isLeap (y : Nat) : Bool :=
  (y % 4 == 0 && y % 100 != 0) || y % 400 == 0

/-- Number of days in a month of a given year. -/
def daysInMonth (y m : Nat) : Nat :=
  if m == 2 then (if isLeap y then 29 else 28)
  else if m == 4 || m == 6 || m == 9 || m == 11 then 30
  else 31

/-- A `Date` that `datetime.date` could actually represent (year ≥ 1 and the
month/day within calendar bounds). -/
def Date.Valid (d : Date) : Prop :=
  1 ≤ d.year ∧ 1 ≤ d.month ∧ d.month ≤ 12 ∧ 1 ≤ d.day ∧ d.day ≤ daysInMonth d.year d.month

instance (d : Date) : Decidable d.Valid := by
  unfold Date.Valid; infer_instance

/-- `d + timedelta(days=1)`: the next calendar day. -/
def nextDate (d : Date) : Date :=
  if d.day < daysInMonth d.year d.month then ⟨d.year, d.month, d.day + 1⟩
  else if d.month < 12 then ⟨d.year, d.month + 1, 1⟩
  else ⟨d.year + 1, 1, 1⟩

/-- `d - timedelta(days=1)`: the previous calendar day. -/
def prevDate (d : Date) : Date :=
  if 1 < d.day then ⟨d.year, d.month, d.day - 1⟩
  else if 1 < d.month then ⟨d.year, d.month - 1, daysInMonth d.year (d.month - 1)⟩
  else ⟨d.year - 1, 12, 31⟩

/-- `d - timedelta(days=n)`. -/
def subDays (n : Nat) (d : Date) : Date :=
  match n with
  | 0 => d
  | n + 1 => subDays n (prevDate d)

/-- Python's `<=` on `datetime.date` values: lexicographic on (year, month, day). -/
def dateLe (a b : Date) : Prop :=
  a.year < b.year ∨ (a.year = b.year ∧ (a.month < b.month ∨ (a.month = b.month ∧ a.day ≤ b.day)))

/-- Python's `<` on `datetime.date` values. -/
def dateLt (a b : Date) : Prop :=
  a.year < b.year ∨ (a.year = b.year ∧ (a.month < b.month ∨ (a.month = b.month ∧ a.day < b.day)))

instance (a b : Date) : Decidable (dateLe a b) := by
  unfold dateLe; infer_instance

instance (a b : Date) : Decidable (dateLt a b) := by
  unfold dateLt; infer_instance

/-- Fuel bounding the number of day-steps from `s` up to (and including) `e`;
used to turn the source's `while current_date <= end_date` loops into
structural recursion. -/
def dateFuel (e s : Date) : Nat :=
  (e.year + 1 - s.year) * 1000 + (13 - s.month) * 50 + (32 - s.day)

/-- The day-enumeration loop shared (textually) by
`GA4ExtractionMetadata.get_missing_dates`, `GoogleAdsMetadata.get_missing_dates`
and `GA4ExtractorV6.get_available_dates`: walk `cur, cur+1, …` while
`cur <= e`, keeping the days satisfying `p`. -/
def dateListGo (p : Date → Bool) (e : Date) : Nat → Date → List Date
  | 0, _ => []
  | fuel + 1, cur =>
    if dateLe cur e then
      if p cur then cur :: dateListGo p e fuel (nextDate cur)
      else dateListGo p e fuel (nextDate cur)
    else []

/-- `strftime('%Y%m')` of a date, rendered as the number `year * 100 + month`
(injective on valid dates, since `month ≤ 12`). -/
def monthKey (d : Date) : Nat := d.year * 100 + d.month

/-- The filesystem as seen by `write_parquet`: a partition is addressed by
`(base_path, table_name, report_month)`; `none` means the directory does not
exist, `some files` lists the parquet files present (each file is the row
batch it holds). -/
def FS (α : Type) := String × String × Nat → Option (List (List α))

/-- `write_parquet(df, base_path, table_name, report_month, force_overwrite)`,
identical in all three source modules.  Skips (returning `false`) when the
partition already has files and `force_overwrite` is unset; with
`force_overwrite` an existing partition is deleted first; otherwise the row
batch is written as a fresh file. -/
def write_parquet {α : Type} (fs : FS α) (base table : String) (report_month : Nat)
    (df : List α) (force_overwrite : Bool) : FS α × Bool :=
  let p := (base, table, report_month)
  if !((fs p).getD []).isEmpty && !force_overwrite then
    (fs, false)
  else
    let fs1 : FS α := if force_overwrite && (fs p).isSome then
        (fun q => if q = p then none else fs q)
      else fs
    (fun q => if q = p then some (((fs1 p).getD []) ++ [df]) else fs1 q, true)

/-- Insert into a Python `set` modelled as a duplicate-free list. -/
def setAdd (l : List Nat) (m : Nat) : List Nat :=
  if l.contains m then l else l ++ [m]

/-- `dates_to_process[i:i + batch_size]` chunking loop
(`for i in range(0, len(dates_to_process), batch_size)`), fuelled by the list
length. -/
def chunksGo {α : Type} (bs : Nat) : Nat → List α → List (List α)
  | 0, _ => []
  | _, [] => []
  | fuel + 1, l => l.take bs :: chunksGo bs fuel (l.drop bs)

def chunksOf {α : Type} (bs : Nat) (l : List α) : List (List α) :=
  chunksGo bs l.length l

/-- The distinct months of the rows of a batch, ascending, as produced by
`df.groupby('month')` (pandas sorts group keys). -/
def monthsOf (df : List Date) : List Nat :=
  List.insertionSort (· ≤ ·) (df.map monthKey).dedup

namespace GA4

/-- `DATA_START_DATE = datetime.date(2025, 3, 1)` in `GA4_fin_v5.py`. -/
def DATA_START_DATE : Date := ⟨2025, 3, 1⟩

def OUTPUT_PATH : String := "./data_repo/ga4"

/-- The `GA4ExtractionMetadata` dictionary (the coverage ledger). -/
structure Metadata where
  last_full_extraction : Option String
  last_incremental_update : Option String
  extracted_dates : List Date
  extracted_months : List Nat
  project_id : Option String
  dataset_id : Option String
  data_start_date : Date
deriving DecidableEq, Repr

/-- The fresh metadata created when no (readable) metadata file exists. -/
def freshMetadata : Metadata :=
  ⟨none, none, [], [], none, none, DATA_START_DATE⟩

/-- `GA4ExtractionMetadata.is_date_extracted`. -/
def is_date_extracted (meta : Metadata) (d : Date) : Bool :=
  meta.extracted_dates.contains d

/-- `GA4ExtractionMetadata.mark_date_extracted`. -/
def mark_date_extracted (meta : Metadata) (d : Date) : Metadata :=
  if meta.extracted_dates.contains d then meta
  else
    let meta' := { meta with extracted_dates := meta.extracted_dates ++ [d] }
    if meta'.extracted_months.contains (monthKey d) then meta'
    else { meta' with extracted_months := meta'.extracted_months ++ [monthKey d] }

/-- `GA4ExtractionMetadata.get_missing_dates`. -/
def get_missing_dates (meta : Metadata) (s e : Date) : List Date :=
  dateListGo (fun d => !is_date_extracted meta d) e (dateFuel e s) s

/-- `GA4ExtractionMetadata.update_extraction_time`; `now` is the current
timestamp string. -/
def update_extraction_time (meta : Metadata) (extraction_type now : String) : Metadata :=
  if extraction_type == "full" then { meta with last_full_extraction := some now }
  else if extraction_type == "incremental" then { meta with last_incremental_update := some now }
  else meta

/-- `GA4ExtractorV6.get_available_dates`; `avail` is the
`check_table_exists` oracle. -/
def get_available_dates (avail : Date → Bool) (s e : Date) : List Date :=
  dateListGo avail e (dateFuel e s) s

/-- `GA4ExtractorV6.extract_date_range`; `fetch` is the BigQuery query oracle.
The source catches every exception and returns an empty DataFrame, so a failed
fetch yields `[]` and never propagates. -/
def extract_date_range (fetch : Date → Date → Except Unit (List Date)) (s e : Date) :
    List Date :=
  match fetch s e with
  | .ok rows => rows
  | .error _ => []

/-- `GA4ExtractorV6.get_dates_to_extract`. -/
def get_dates_to_extract (meta : Metadata) (avail : Date → Bool) (today : Date)
    (mode : String) (end_date : Option Date) : List Date :=
  let e := end_date.getD today
  let dates_to_process :=
    if mode == "full" then
      get_available_dates avail DATA_START_DATE e
    else if mode == "smart" then
      (get_available_dates avail DATA_START_DATE e).filter (fun d => !is_date_extracted meta d)
    else if mode == "current_month" then
      get_available_dates avail ⟨today.year, today.month, 1⟩ e
    else if mode == "last_n_days" then
      get_available_dates avail (subDays 7 today) e
    else if mode == "yesterday" then
      if avail (prevDate today) then [prevDate today] else []
    else []
  List.insertionSort dateLe dates_to_process

/-- The run-summary dictionary of `GA4ExtractorV6.extract_and_save`. -/
structure Stats where
  status : String
  dates_processed : Nat
  total_rows : Nat
  months_updated : List Nat
  errors : List String
deriving DecidableEq, Repr

/-- One iteration of the batch loop in `GA4ExtractorV6.extract_and_save`.
Rows are modelled by their `event_date`.  In the embedding the fetch cannot
raise (the source catches everything inside `extract_date_range`) and the
writer is total, so the `except` arm of the source loop is unreachable and
`errors` is never appended to. -/
def processBatch (today : Date) (fetch : Date → Date → Except Unit (List Date))
    (st : Stats × Metadata × FS Date) (batch_dates : List Date) :
    Stats × Metadata × FS Date :=
  let stats := st.1
  let meta := st.2.1
  let fs := st.2.2
  let df := extract_date_range fetch (batch_dates.headD ⟨1, 1, 1⟩) (batch_dates.getLastD ⟨1, 1, 1⟩)
  if df.isEmpty then
    (stats, meta, fs)
  else
    let current_month := monthKey today
    let wr := (monthsOf df).foldl
      (fun (acc : FS Date × List Nat) m =>
        let month_df := df.filter (fun r => monthKey r == m)
        let w :=
          write_parquet acc.1 OUTPUT_PATH "analytics_events_final" m month_df (m == current_month)
        (w.1, if w.2 then setAdd acc.2 m else acc.2))
      (fs, stats.months_updated)
    let meta' := batch_dates.foldl mark_date_extracted meta
    ({ stats with
        dates_processed := stats.dates_processed + batch_dates.length,
        total_rows := stats.total_rows + df.length,
        months_updated := wr.2 },
     meta', wr.1)

/-- `GA4ExtractorV6.extract_and_save`; `now` is the timestamp used by
`update_extraction_time` before `save_metadata`. -/
def extract_and_save (mode : String) (batch_size : Nat) (end_date : Option Date)
    (today : Date) (avail : Date → Bool) (fetch : Date → Date → Except Unit (List Date))
    (now : String) (meta : Metadata) (fs : FS Date) : Stats × Metadata × FS Date :=
  let dates_to_process := get_dates_to_extract meta avail today mode end_date
  if dates_to_process.isEmpty then
    (⟨"up_to_date", 0, 0, [], []⟩, meta, fs)
  else
    let init : Stats × Metadata × FS Date := (⟨"success", 0, 0, [], []⟩, meta, fs)
    let res := (chunksOf batch_size dates_to_process).foldl (processBatch today fetch) init
    let extraction_type := if mode == "full" then "full" else "incremental"
    (res.1, update_extraction_time res.2.1 extraction_type now, res.2.2)

end GA4

namespace Ads

/-- `DATA_START_DATE = date(2025, 1, 1)` in `google_ads_fin_v5.py`. -/
def DATA_START_DATE : Date := ⟨2025, 1, 1⟩

def OUTPUT_PATH : String := "./data_repo/google_ads"

/-- The `GoogleAdsMetadata` dictionary. -/
structure Metadata where
  last_full_extraction : Option String
  last_incremental_update : Option String
  extracted_dates : List Date
  extracted_months : List Nat
  customer_id : Option String
  data_start_date : Date
  total_api_calls : Nat
  last_api_error : Option String
deriving DecidableEq, Repr

def freshMetadata : Metadata :=
  ⟨none, none, [], [], none, DATA_START_DATE, 0, none⟩

/-- `GoogleAdsMetadata.is_date_extracted`. -/
def is_date_extracted (meta : Metadata) (d : Date) : Bool :=
  meta.extracted_dates.contains d

/-- `GoogleAdsMetadata.mark_date_extracted` (textually identical to GA4's). -/
def mark_date_extracted (meta : Metadata) (d : Date) : Metadata :=
  if meta.extracted_dates.contains d then meta
  else
    let meta' := { meta with extracted_dates := meta.extracted_dates ++ [d] }
    if meta'.extracted_months.contains (monthKey d) then meta'
    else { meta' with extracted_months := meta'.extracted_months ++ [monthKey d] }

/-- `GoogleAdsMetadata.get_missing_dates` (textually identical to GA4's). -/
def get_missing_dates (meta : Metadata) (s e : Date) : List Date :=
  dateListGo (fun d => !is_date_extracted meta d) e (dateFuel e s) s

/-- `GoogleAdsMetadata.update_extraction_time`. -/
def update_extraction_time (meta : Metadata) (extraction_type now : String) : Metadata :=
  if extraction_type == "full" then { meta with last_full_extraction := some now }
  else if extraction_type == "incremental" then { meta with last_incremental_update := some now }
  else meta

/-- `GoogleAdsExtractorV6.get_performance_data_batch`; rows are modelled by
their `segments.date`.  The source wraps the whole API interaction in a
`try`/`except` that logs the error, records it in `last_api_error` and returns
an empty DataFrame — an API failure never propagates.  On success
`increment_api_calls` bumps the metadata counter. -/
def get_performance_data_batch (fetch : Date → Date → Except String (List Date))
    (meta : Metadata) (s e : Date) : List Date × Metadata :=
  match fetch s e with
  | .ok rows => (rows, { meta with total_api_calls := meta.total_api_calls + 1 })
  | .error msg => ([], { meta with last_api_error := some msg })

/-- `GoogleAdsExtractorV6.get_dates_to_extract`.  The default end date is
`today - 3 days` (the Google Ads reporting delay). -/
def get_dates_to_extract (meta : Metadata) (today : Date)
    (mode : String) (end_date : Option Date) : List Date :=
  let e := end_date.getD (subDays 3 today)
  let dates_to_process :=
    if mode == "full" then
      dateListGo (fun _ => true) e (dateFuel e DATA_START_DATE) DATA_START_DATE
    else if mode == "smart" then
      get_missing_dates meta DATA_START_DATE e
    else if mode == "current_month" then
      dateListGo (fun _ => true) e (dateFuel e ⟨today.year, today.month, 1⟩)
        ⟨today.year, today.month, 1⟩
    else if mode == "last_n_days" then
      dateListGo (fun _ => true) e (dateFuel e (subDays 6 e)) (subDays 6 e)
    else if mode == "yesterday" then
      [subDays 3 today]
    else []
  List.insertionSort dateLe dates_to_process

/-- The run-summary dictionary of `GoogleAdsExtractorV6.extract_and_save`. -/
structure Stats where
  status : String
  dates_processed : Nat
  total_rows : Nat
  months_updated : List Nat
  api_calls_made : Nat
  errors : List String
deriving DecidableEq, Repr

/-- One iteration of the batch loop in `GoogleAdsExtractorV6.extract_and_save`.
Note the empty-DataFrame branch (which is also the API-failure outcome, since
`get_performance_data_batch` swallows errors) still marks every batch date as
extracted.  As for GA4, nothing in the embedded loop body can raise, so the
`except` arm never appends to `errors`. -/
def processBatch (today : Date) (fetch : Date → Date → Except String (List Date))
    (st : Stats × Metadata × FS Date) (batch_dates : List Date) :
    Stats × Metadata × FS Date :=
  let stats := st.1
  let meta := st.2.1
  let fs := st.2.2
  let r :=
    get_performance_data_batch fetch meta (batch_dates.headD ⟨1, 1, 1⟩)
      (batch_dates.getLastD ⟨1, 1, 1⟩)
  let df := r.1
  let meta1 := r.2
  let stats1 := { stats with api_calls_made := stats.api_calls_made + 1 }
  if df.isEmpty then
    let meta2 := batch_dates.foldl mark_date_extracted meta1
    ({ stats1 with dates_processed := stats1.dates_processed + batch_dates.length }, meta2, fs)
  else
    let current_month := monthKey today
    let wr := (monthsOf df).foldl
      (fun (acc : FS Date × List Nat) m =>
        let month_df := df.filter (fun r => monthKey r == m)
        let w :=
          write_parquet acc.1 OUTPUT_PATH "google_ads_final" m month_df (m == current_month)
        (w.1, if w.2 then setAdd acc.2 m else acc.2))
      (fs, stats1.months_updated)
    let meta2 := batch_dates.foldl mark_date_extracted meta1
    ({ stats1 with
        dates_processed := stats1.dates_processed + batch_dates.length,
        total_rows := stats1.total_rows + df.length,
        months_updated := wr.2 },
     meta2, wr.1)

/-- `GoogleAdsExtractorV6.extract_and_save`. -/
def extract_and_save (mode : String) (batch_size : Nat) (end_date : Option Date)
    (today : Date) (fetch : Date → Date → Except String (List Date))
    (now : String) (meta : Metadata) (fs : FS Date) : Stats × Metadata × FS Date :=
  let dates_to_process := get_dates_to_extract meta today mode end_date
  if dates_to_process.isEmpty then
    (⟨"up_to_date", 0, 0, [], 0, []⟩, meta, fs)
  else
    let init : Stats × Metadata × FS Date := (⟨"success", 0, 0, [], 0, []⟩, meta, fs)
    let res := (chunksOf batch_size dates_to_process).foldl (processBatch today fetch) init
    let extraction_type := if mode == "full" then "full" else "incremental"
    (res.1, update_extraction_time res.2.1 extraction_type now, res.2.2)

end Ads

namespace SC

def OUTPUT_PATH : String := "./data_repo/search_console"

/-- An opaque Search Console result row. -/
abbrev Row : Type := Nat

/-- The `ExtractionMetadata` dictionary of
`search_console_extractor_fin_v5.py` (months only, no per-day tracking). -/
structure Metadata where
  last_full_extraction : Option String
  last_incremental_update : Option String
  extracted_months : List Nat
  site_url : Option String
deriving DecidableEq, Repr

def freshMetadata : Metadata := ⟨none, none, [], none⟩

/-- `ExtractionMetadata.is_month_extracted`. -/
def is_month_extracted (meta : Metadata) (mk : Nat) : Bool :=
  meta.extracted_months.contains mk

/-- `ExtractionMetadata.mark_month_extracted`. -/
def mark_month_extracted (meta : Metadata) (mk : Nat) : Metadata :=
  if meta.extracted_months.contains mk then meta
  else { meta with extracted_months := meta.extracted_months ++ [mk] }

/-- `ExtractionMetadata.update_extraction_time`. -/
def update_extraction_time (meta : Metadata) (extraction_type now : String) : Metadata :=
  if extraction_type == "full" then { meta with last_full_extraction := some now }
  else if extraction_type == "incremental" then { meta with last_incremental_update := some now }
  else meta

/-- The `row_limit` of `SearchConsoleExtractorV6.get_search_analytics`. -/
def row_limit : Nat := 25000

/-- The pagination loop of `SearchConsoleExtractorV6.get_search_analytics`.
`pages start_row` is one `searchanalytics().query(...)` call returning the
rows from `start_row` on (at most `row_limit`), or an API error.  On an API
error the source logs and `break`s — returning whatever rows were collected so
far.  The source loop is unbounded; `fuel` bounds the number of requests, and
any terminating execution is reproduced by a large enough fuel. -/
def get_search_analytics_go (pages : Nat → Except Unit (List Row)) :
    Nat → Nat → List Row → List Row
  | 0, _, all_rows => all_rows
  | fuel + 1, start_row, all_rows =>
    match pages start_row with
    | .error _ => all_rows
    | .ok new_rows =>
      if new_rows.isEmpty then all_rows
      else
        let all_rows' := all_rows ++ new_rows
        if new_rows.length < row_limit then all_rows'
        else get_search_analytics_go pages fuel (start_row + new_rows.length) all_rows'

/-- `SearchConsoleExtractorV6.get_search_analytics` (it never raises: API
errors merely stop the pagination). -/
def get_search_analytics (pages : Nat → Except Unit (List Row)) (fuel : Nat) : List Row :=
  get_search_analytics_go pages fuel 0 []

/-- `(today - relativedelta(months=i)).replace(day=1)`: the first day of the
month `i` months before `today`'s month. -/
def subMonthsStart (today : Date) (i : Nat) : Date :=
  let t := today.year * 12 + (today.month - 1) - i
  ⟨t / 12, t % 12 + 1, 1⟩

/-- The day-walk of the `last_n_days` branch of `get_months_to_extract`:
walk from `start` to `today`, emitting each month on first sight. -/
def lastNDaysGo (today : Date) (current_month_str : Nat) :
    Nat → Date → List Nat → List (Date × Bool) → List (Date × Bool)
  | 0, _, _, acc => acc
  | fuel + 1, cur, processed_months, acc =>
    if dateLe cur today then
      let month_start : Date := ⟨cur.year, cur.month, 1⟩
      let month_str := monthKey month_start
      if processed_months.contains month_str then
        lastNDaysGo today current_month_str fuel (nextDate cur) processed_months acc
      else
        lastNDaysGo today current_month_str fuel (nextDate cur)
          (processed_months ++ [month_str])
          (acc ++ [(month_start, month_str == current_month_str)])
    else acc

/-- `SearchConsoleExtractorV6.get_months_to_extract`: returns
`(month_start, is_current)` pairs.  Note `full` and `smart` iterate
`i = 0 .. lookback_months - 1` going *backwards* in time, and `smart` always
includes the current month (`i == 0`) regardless of the ledger. -/
def get_months_to_extract (meta : Metadata) (today : Date)
    (mode : String) (lookback_months : Nat) : List (Date × Bool) :=
  let current_month_str := monthKey ⟨today.year, today.month, 1⟩
  if mode == "full" then
    (List.range lookback_months).map (fun i => (subMonthsStart today i, i == 0))
  else if mode == "smart" then
    (List.range lookback_months).filterMap (fun i =>
      let target_month_start := subMonthsStart today i
      let month_str := monthKey target_month_start
      let is_current := i == 0
      if is_current || !is_month_extracted meta month_str then
        some (target_month_start, is_current)
      else none)
  else if mode == "current_only" then
    [(⟨today.year, today.month, 1⟩, true)]
  else if mode == "last_n_days" then
    let start := subDays lookback_months today
    lastNDaysGo today current_month_str (dateFuel today start) start [] []
  else []

/-- The run-summary dictionary of `SearchConsoleExtractorV6.extract_and_save`. -/
structure Stats where
  status : String
  months_processed : Nat
  total_rows : Nat
  months_skipped : Nat
  errors : List String
deriving DecidableEq, Repr

/-- `target_month_start + relativedelta(months=1)`. -/
def addOneMonth (d : Date) : Date :=
  if d.month < 12 then ⟨d.year, d.month + 1, d.day⟩ else ⟨d.year + 1, 1, d.day⟩

/-- One iteration of the month loop in
`SearchConsoleExtractorV6.extract_and_save`.  `pages s e start_row` is the
paginated API oracle for the inclusive range `[s, e]`; `pageFuel` bounds each
pagination (see `get_search_analytics_go`).  An empty result is counted as
skipped without marking; a written month is marked extracted only when
`write_parquet` reported that it wrote (`wrote_data`).  As with the other two
extractors nothing in the embedded body can raise, so `errors` never grows. -/
def processMonth (today : Date) (pages : Date → Date → Nat → Except Unit (List Row))
    (pageFuel : Nat) (st : Stats × Metadata × FS Row) (month : Date × Bool) :
    Stats × Metadata × FS Row :=
  let stats := st.1
  let meta := st.2.1
  let fs := st.2.2
  let target_month_start := month.1
  let is_current := month.2
  let next_month := addOneMonth target_month_start
  let target_month_end := if dateLe (prevDate next_month) today then prevDate next_month else today
  let report_month_str := monthKey target_month_start
  let df := get_search_analytics (pages target_month_start target_month_end) pageFuel
  if df.isEmpty then
    ({ stats with months_skipped := stats.months_skipped + 1 }, meta, fs)
  else
    let w :=
      write_parquet fs OUTPUT_PATH "search_console_final" report_month_str df is_current
    if w.2 then
      ({ stats with
          months_processed := stats.months_processed + 1,
          total_rows := stats.total_rows + df.length },
       mark_month_extracted meta report_month_str, w.1)
    else
      ({ stats with months_skipped := stats.months_skipped + 1 }, meta, w.1)

/-- `SearchConsoleExtractorV6.extract_and_save`. -/
def extract_and_save (mode : String) (lookback_months : Nat)
    (today : Date) (pages : Date → Date → Nat → Except Unit (List Row)) (pageFuel : Nat)
    (now : String) (meta : Metadata) (fs : FS Row) : Stats × Metadata × FS Row :=
  let months_to_process := get_months_to_extract meta today mode lookback_months
  if months_to_process.isEmpty then
    (⟨"up_to_date", 0, 0, 0, []⟩, meta, fs)
  else
    let init : Stats × Metadata × FS Row := (⟨"success", 0, 0, 0, []⟩, meta, fs)
    let res := months_to_process.foldl (processMonth today pages pageFuel) init
    let extraction_type := if mode == "full" then "full" else "incremental"
    (res.1, update_extraction_time res.2.1 extraction_type now, res.2.2)

end SC

/-! ### The persisted metadata file (`_load_metadata`) -/

/-- A Python value as produced by `json.load` (plus `date`, which the GA4/Ads
loaders substitute into the parsed value).  Objects are modelled as assoc
lists with unique keys (as `json.load` produces, collapsing duplicates). -/
inductive PyVal where
  | null : PyVal
  | bool : Bool → PyVal
  | num : Int → PyVal
  | str : String → PyVal
  | date : Date → PyVal
  | arr : List PyVal → PyVal
  | obj : List (String × PyVal) → PyVal

/-- The Python exceptions that matter to `_load_metadata`: `ValueError`
(raised by `strptime` on a malformed date string; caught) and `TypeError`
(raised by `in` / subscripting / `strptime` on wrongly-typed values; NOT
caught). -/
inductive PyErr where
  | typeError : PyErr
  | valueError : PyErr
deriving DecidableEq, Repr

def isPrefixChars : List Char → List Char → Bool
  | [], _ => true
  | _ :: _, [] => false
  | p :: ps, h :: hs => p == h && isPrefixChars ps hs

def containsSubChars (hay pat : List Char) : Bool :=
  match hay with
  | [] => pat.isEmpty
  | _ :: rest => isPrefixChars pat hay || containsSubChars rest pat

/-- Substring test (`needle in haystack` for Python strings). -/
def strContains (haystack needle : String) : Bool :=
  containsSubChars haystack.data needle.data

/-- Python's `key in value`: key membership for a dict, element equality for a
list (a non-string element never equals a string), substring for a string,
`TypeError` otherwise. -/
def pyContainsKey (key : String) (v : PyVal) : Except PyErr Bool :=
  match v with
  | .obj kvs => .ok (kvs.any (fun kv => kv.1 == key))
  | .arr xs => .ok (xs.any (fun x => match x with | .str s => s == key | _ => false))
  | .str s => .ok (strContains s key)
  | _ => .error .typeError

/-- First-match dict lookup (`metadata['extracted_dates']`, key present). -/
def pyLookup (kvs : List (String × PyVal)) (key : String) : PyVal :=
  match kvs.find? (fun kv => kv.1 == key) with
  | some kv => kv.2
  | none => .null

/-- Dict update `metadata['extracted_dates'] = …`. -/
def objSet (kvs : List (String × PyVal)) (key : String) (v : PyVal) :
    List (String × PyVal) :=
  kvs.map (fun kv => if kv.1 == key then (kv.1, v) else kv)

/-- Split a character list at `-`. -/
def splitDash (cs : List Char) : List (List Char) :=
  match cs with
  | [] => [[]]
  | c :: rest =>
    let r := splitDash rest
    if c == '-' then [] :: r
    else (c :: r.headD []) :: r.tail

/-- Read a nonempty all-digit character list as a number. -/
def digitsToNat (cs : List Char) : Option Nat :=
  if cs.isEmpty then none
  else cs.foldl (fun acc c => match acc with
    | none => none
    | some n => if c.isDigit then some (n * 10 + (c.toNat - 48)) else none) (some 0)

/-- Modelled from the behaviour of the external
`datetime.datetime.strptime(s, '%Y-%m-%d').date()`: split on `-`, read the
numeric components, and validate them against the calendar.  `none` stands
for `ValueError`. -/
def parseDate (s : String) : Option Date :=
  match splitDash s.data with
  | [ys, ms, ds] =>
    match digitsToNat ys, digitsToNat ms, digitsToNat ds with
    | some y, some m, some d =>
      if 1 ≤ y ∧ 1 ≤ m ∧ m ≤ 12 ∧ 1 ≤ d ∧ d ≤ daysInMonth y m then some ⟨y, m, d⟩
      else none
    | _, _, _ => none
  | _ => none

/-- The list comprehension
`[strptime(d, '%Y-%m-%d').date() for d in metadata['extracted_dates']]`,
left to right, first exception wins: a non-string element raises `TypeError`,
a string that is not a date raises `ValueError`. -/
def convertDateList : List PyVal → Except PyErr (List PyVal)
  | [] => .ok []
  | x :: xs =>
    match x with
    | .str s =>
      match parseDate s with
      | some d => (convertDateList xs).map (fun rest => .date d :: rest)
      | none => .error .valueError
    | _ => .error .typeError

/-- Iterating `metadata['extracted_dates']` when it is not a list: a string
iterates its characters (each then fails `strptime` with `ValueError` — no
one-character string is a date), a dict iterates its keys, anything else
raises `TypeError`. -/
def convertDateField : PyVal → Except PyErr (List PyVal)
  | .arr xs => convertDateList xs
  | .str s => if s.isEmpty then .ok [] else .error .valueError
  | .obj kvs => convertDateList (kvs.map (fun kv => .str kv.1))
  | _ => .error .typeError

/-- What the metadata file contains: `none` = no file
(`os.path.exists` false), `some (.error ())` = unparseable content
(`json.load` raises `JSONDecodeError`), `some (.ok j)` = content parsing to
the JSON value `j`. -/
def Storage : Type := Option (Except Unit PyVal)

namespace GA4

/-- The fresh metadata dict built by `GA4ExtractionMetadata._load_metadata`
when there is nothing (readable) to load. -/
def freshMetadataJson : PyVal :=
  .obj [("last_full_extraction", .null),
        ("last_incremental_update", .null),
        ("extracted_dates", .arr []),
        ("extracted_months", .arr []),
        ("project_id", .null),
        ("dataset_id", .null),
        ("data_start_date", .str "2025-03-01")]

/-- `GA4ExtractionMetadata._load_metadata`.  The `try` catches
`JSONDecodeError`, `FileNotFoundError` and `ValueError` (falling through to
the fresh dict); a `TypeError` — e.g. `'extracted_dates' in 5`, or
`metadata['extracted_dates']` on a list — escapes.  A parsed value without an
`extracted_dates` member is returned as-is, not replaced by a fresh ledger. -/
def load_metadata (storage : Storage) : Except PyErr PyVal :=
  match storage with
  | none => .ok freshMetadataJson
  | some (.error _) => .ok freshMetadataJson
  | some (.ok j) =>
    match pyContainsKey "extracted_dates" j with
    | .error e => .error e
    | .ok false => .ok j
    | .ok true =>
      match j with
      | .obj kvs =>
        match convertDateField (pyLookup kvs "extracted_dates") with
        | .ok dates => .ok (.obj (objSet kvs "extracted_dates" (.arr dates)))
        | .error .valueError => .ok freshMetadataJson
        | .error .typeError => .error .typeError
      | _ => .error .typeError

end GA4

namespace SC

/-- The fresh metadata dict of `ExtractionMetadata._load_metadata`
(`search_console_extractor_fin_v5.py`). -/
def freshMetadataJson : PyVal :=
  .obj [("last_full_extraction", .null),
        ("last_incremental_update", .null),
        ("extracted_months", .arr []),
        ("site_url", .null)]

/-- `ExtractionMetadata._load_metadata` of the Search Console extractor: no
conversion at all — any successfully parsed JSON value is returned as-is. -/
def load_metadata (storage : Storage) : Except PyErr PyVal :=
  match storage with
  | none => .ok freshMetadataJson
  | some (.error _) => .ok freshMetadataJson
  | some (.ok j) => .ok j

end SC

/-- The coverage-ledger invariant implicit in `mark_date_extracted`:
`extracted_dates` is duplicate-free and every extracted date's `YYYYMM` tag is
in `extracted_months`. -/
def GA4.ledgerInvariant (meta : GA4.Metadata) : Prop :=
  meta.extracted_dates.Nodup ∧
    ∀ d ∈ meta.extracted_dates, monthKey d ∈ meta.extracted_months

/-- The same invariant for the Google Ads metadata. -/
def Ads.ledgerInvariant (meta : Ads.Metadata) : Prop :=
  meta.extracted_dates.Nodup ∧
    ∀ d ∈ meta.extracted_dates, monthKey d ∈ meta.extracted_months

instance dateLe_isTotal : IsTotal Date dateLe :=
  ⟨by intro a b; unfold dateLe; omega⟩

instance dateLe_isTrans : IsTrans Date dateLe :=
  ⟨by intro a b c h₁ h₂; unfold dateLe at *; omega⟩

/-! ### Claims -/

theorem daysInMonth_le_31 (y m : Nat) : daysInMonth y m ≤ 31 := by
  unfold daysInMonth
  split <;> [split <;> omega; split <;> omega]

theorem daysInMonth_pos (y m : Nat) : 1 ≤ daysInMonth y m := by
  unfold daysInMonth
  split <;> [split <;> omega; split <;> omega]

theorem dateLe_refl (a : Date) : dateLe a a := by
  unfold dateLe; omega

theorem dateLe_trans {a b c : Date} (h₁ : dateLe a b) (h₂ : dateLe b c) : dateLe a c := by
  unfold dateLe at *; omega

theorem dateLt_of_lt_of_le {a b c : Date} (h₁ : dateLt a b) (h₂ : dateLe b c) : dateLt a c := by
  unfold dateLt dateLe at *; omega

theorem dateLe_of_lt {a b : Date} (h : dateLt a b) : dateLe a b := by
  unfold dateLt dateLe at *; omega

theorem dateLt_of_le_of_ne {a b : Date} (h : dateLe a b) (hne : a ≠ b) : dateLt a b := by
  have : ¬(a.year = b.year ∧ a.month = b.month ∧ a.day = b.day) := by
    intro hc
    exact hne (by cases a; cases b; simp_all)
  unfold dateLe at h; unfold dateLt; omega

theorem dateLt_nextDate {d : Date} : dateLt d (nextDate d) := by
  unfold nextDate dateLt
  split
  · dsimp only; omega
  · split <;> (dsimp only; omega)

theorem nextDate_valid {d : Date} (h : d.Valid) : (nextDate d).Valid := by
  obtain ⟨h1, h2, h3, h4, h5⟩ := h
  unfold nextDate
  split
  · exact ⟨h1, h2, h3, by dsimp only; omega, by dsimp only; omega⟩
  · split
    · refine ⟨h1, ?_, ?_, ?_, ?_⟩ <;> dsimp only
      · omega
      · omega
      · omega
      · exact daysInMonth_pos ..
    · refine ⟨?_, ?_, ?_, ?_, ?_⟩ <;> dsimp only
      · omega
      · omega
      · omega
      · omega
      · exact daysInMonth_pos ..

/-- `nextDate` really is the successor: no valid date lies strictly between
`d` and `nextDate d`. -/
theorem nextDate_le_of_lt {d x : Date} (hd : d.Valid) (hx : x.Valid) (h : dateLt d x) :
    dateLe (nextDate d) x := by
  obtain ⟨hd1, hd2, hd3, hd4, hd5⟩ := hd
  obtain ⟨hx1, hx2, hx3, hx4, hx5⟩ := hx
  unfold nextDate
  split
  · unfold dateLt at h; unfold dateLe; dsimp only; omega
  · split
    · -- month rollover: d.day = daysInMonth d.year d.month
      rename_i hday hm
      unfold dateLt at h; unfold dateLe; dsimp only
      rcases h with h | ⟨hy, h⟩
      · omega
      · rcases h with h | ⟨hm', h⟩
        · omega
        · -- same year & month, d.day < x.day yet d.day ≥ daysInMonth: contradiction
          exfalso
          have : x.day ≤ daysInMonth d.year d.month := by rw [← hy, ← hm'] at hx5; exact hx5
          omega
    · -- year rollover: d.month = 12, d.day = 31
      rename_i hday hm
      unfold dateLt at h; unfold dateLe; dsimp only
      rcases h with h | ⟨hy, h⟩
      · omega
      · rcases h with h | ⟨hm', h⟩
        · omega
        · exfalso
          have h31 : daysInMonth d.year d.month = 31 := by
            have : d.month = 12 := by omega
            simp [daysInMonth, this]
          have : x.day ≤ daysInMonth d.year d.month := by rw [← hy, ← hm'] at hx5; exact hx5
          omega

theorem dateFuel_next_lt {e s : Date} (h : dateLe s e) :
    dateFuel e (nextDate s) < dateFuel e s := by
  have hy : s.year ≤ e.year := by unfold dateLe at h; omega
  have hdm : daysInMonth s.year s.month ≤ 31 := daysInMonth_le_31 ..
  unfold dateFuel nextDate
  split
  · dsimp only; omega
  · split
    · dsimp only; omega
    · dsimp only; omega

theorem dateListGo_le {p : Date → Bool} {e : Date} :
    ∀ {fuel : Nat} {cur x : Date}, x ∈ dateListGo p e fuel cur → dateLe cur x := by
  intro fuel
  induction fuel with
  | zero => intro cur x hx; simp [dateListGo] at hx
  | succ n ih =>
    intro cur x hx
    unfold dateListGo at hx
    split at hx
    · rename_i hle
      split at hx
      · rcases List.mem_cons.mp hx with h | h
        · subst h; exact dateLe_refl _
        · exact dateLe_trans (dateLe_of_lt dateLt_nextDate) (ih h)
      · exact dateLe_trans (dateLe_of_lt dateLt_nextDate) (ih hx)
    · simp at hx

/-- Master specification of the enumeration loop.  Starting from a valid date
with sufficient fuel, the loop returns exactly the valid dates of `[cur, e]`
satisfying `p`, in strictly ascending order. -/
theorem dateListGo_spec {p : Date → Bool} {e : Date} :
    ∀ {fuel : Nat} {cur : Date}, cur.Valid → dateFuel e cur ≤ fuel →
      (∀ x, x ∈ dateListGo p e fuel cur ↔
        (x.Valid ∧ dateLe cur x ∧ dateLe x e ∧ p x = true)) ∧
      List.Sorted dateLt (dateListGo p e fuel cur) := by
  intro fuel
  induction fuel with
  | zero =>
    intro cur hv hf
    exfalso
    obtain ⟨_, _, h3, _, _⟩ := hv
    unfold dateFuel at hf
    omega
  | succ n ih =>
    intro cur hv hf
    unfold dateListGo
    split
    · rename_i hle
      have hnv : (nextDate cur).Valid := nextDate_valid hv
      have hnf : dateFuel e (nextDate cur) ≤ n := by
        have := dateFuel_next_lt hle
        omega
      obtain ⟨ihm, ihs⟩ := ih hnv hnf
      have hmem : ∀ x, (x ∈ dateListGo p e n (nextDate cur)) ↔
          (x.Valid ∧ dateLe cur x ∧ x ≠ cur ∧ dateLe x e ∧ p x = true) := by
        intro x
        rw [ihm x]
        constructor
        · rintro ⟨hxv, hge, hxe, hp⟩
          refine ⟨hxv, dateLe_trans (dateLe_of_lt dateLt_nextDate) hge, ?_, hxe, hp⟩
          intro hcontra
          subst hcontra
          exact absurd (dateLt_of_lt_of_le dateLt_nextDate hge) (by unfold dateLt; omega)
        · rintro ⟨hxv, hge, hne, hxe, hp⟩
          exact ⟨hxv, nextDate_le_of_lt hv hxv (dateLt_of_le_of_ne hge (Ne.symm hne)), hxe, hp⟩
      split
      · rename_i hp
        constructor
        · intro x
          rw [List.mem_cons, hmem x]
          constructor
          · rintro (h | ⟨hxv, hge, _, hxe, hpx⟩)
            · subst h; exact ⟨hv, dateLe_refl _, hle, hp⟩
            · exact ⟨hxv, hge, hxe, hpx⟩
          · rintro ⟨hxv, hge, hxe, hpx⟩
            by_cases hx : x = cur
            · exact Or.inl hx
            · exact Or.inr ⟨hxv, hge, hx, hxe, hpx⟩
        · refine List.sorted_cons.mpr ⟨?_, ihs⟩
          intro x hx
          exact dateLt_of_lt_of_le dateLt_nextDate (dateListGo_le hx)
      · rename_i hp
        constructor
        · intro x
          rw [hmem x]
          constructor
          · rintro ⟨hxv, hge, _, hxe, hpx⟩
            exact ⟨hxv, hge, hxe, hpx⟩
          · rintro ⟨hxv, hge, hxe, hpx⟩
            refine ⟨hxv, hge, ?_, hxe, hpx⟩
            intro hcontra
            subst hcontra
            simp [hpx] at hp
        · exact ihs
    · rename_i hnle
      constructor
      · intro x
        simp only [List.not_mem_nil, false_iff]
        rintro ⟨_, hge, hxe, _⟩
        exact hnle (dateLe_trans hge hxe)
      · exact List.sorted_nil


/-- C5: for every ledger state and every pair of dates, `get_missing_dates`
(GA4 and Google Ads) returns exactly the dates of the inclusive range
`[start, end]` that are not in `extracted_dates`, in ascending chronological
order; in particular with `extracted_dates = {2025-01-01, 2025-01-03}`,
`get_missing_dates(2025-01-01, 2025-01-05)` is exactly
`[2025-01-02, 2025-01-04, 2025-01-05]`. -/
theorem C5_get_missing_dates_spec (metaG : GA4.Metadata) (metaA : Ads.Metadata)
    (s e : Date) (hs : s.Valid) :
    ((∀ x, x ∈ GA4.get_missing_dates metaG s e ↔
        (x.Valid ∧ dateLe s x ∧ dateLe x e ∧ GA4.is_date_extracted metaG x = false)) ∧
      List.Sorted dateLt (GA4.get_missing_dates metaG s e)) ∧
    ((∀ x, x ∈ Ads.get_missing_dates metaA s e ↔
        (x.Valid ∧ dateLe s x ∧ dateLe x e ∧ Ads.is_date_extracted metaA x = false)) ∧
      List.Sorted dateLt (Ads.get_missing_dates metaA s e)) ∧
    GA4.get_missing_dates
        ⟨none, none, [⟨2025, 1, 1⟩, ⟨2025, 1, 3⟩], [], none, none, GA4.DATA_START_DATE⟩
        ⟨2025, 1, 1⟩ ⟨2025, 1, 5⟩ =
      [⟨2025, 1, 2⟩, ⟨2025, 1, 4⟩, ⟨2025, 1, 5⟩] := by
  have hG := @dateListGo_spec (fun d => !GA4.is_date_extracted metaG d) e
    (dateFuel e s) s hs (Nat.le_refl _)
  have hA := @dateListGo_spec (fun d => !Ads.is_date_extracted metaA d) e
    (dateFuel e s) s hs (Nat.le_refl _)
  refine ⟨⟨?_, hG.2⟩, ⟨⟨?_, hA.2⟩, ?_⟩⟩
  · intro x
    rw [GA4.get_missing_dates, hG.1 x]
    cases h : GA4.is_date_extracted metaG x <;> simp [h]
  · intro x
    rw [Ads.get_missing_dates, hA.1 x]
    cases h : Ads.is_date_extracted metaA x <;> simp [h]
  · decide

/-- Witness for C5 at the spec's concrete scenario. -/
theorem C5_get_missing_dates_spec_witness :
    (⟨2025, 1, 1⟩ : Date).Valid ∧
      List.Sorted dateLt (GA4.get_missing_dates
        ⟨none, none, [⟨2025, 1, 1⟩, ⟨2025, 1, 3⟩], [], none, none, GA4.DATA_START_DATE⟩
        ⟨2025, 1, 1⟩ ⟨2025, 1, 5⟩) :=
  ⟨by decide,
   (C5_get_missing_dates_spec
      ⟨none, none, [⟨2025, 1, 1⟩, ⟨2025, 1, 3⟩], [], none, none, GA4.DATA_START_DATE⟩
      Ads.freshMetadata ⟨2025, 1, 1⟩ ⟨2025, 1, 5⟩ (by decide)).1.2⟩

theorem ga4_mark_preserves (meta : GA4.Metadata) (d : Date) :
    (GA4.ledgerInvariant meta → GA4.ledgerInvariant (GA4.mark_date_extracted meta d)) ∧
    meta.extracted_dates ⊆ (GA4.mark_date_extracted meta d).extracted_dates ∧
    meta.extracted_months ⊆ (GA4.mark_date_extracted meta d).extracted_months := by
  by_cases hc : meta.extracted_dates.contains d = true
  · have heq : GA4.mark_date_extracted meta d = meta := by
      unfold GA4.mark_date_extracted
      rw [if_pos hc]
    rw [heq]
    exact ⟨id, fun x h => h, fun x h => h⟩
  · have hd : d ∉ meta.extracted_dates := by
      intro hmem
      exact hc (by simpa using hmem)
    by_cases hm : meta.extracted_months.contains (monthKey d) = true
    · have hmk : monthKey d ∈ meta.extracted_months := by simpa using hm
      simp only [GA4.mark_date_extracted, hc, if_false, hm, if_true, Bool.false_eq_true]
      refine ⟨?_, fun x h => List.mem_append_left _ h, fun x h => h⟩
      rintro ⟨hnd, hcl⟩
      refine ⟨by simp [List.nodup_append, hnd, hd], ?_⟩
      intro x hx
      rcases List.mem_append.mp hx with h | h
      · exact hcl x h
      · simp only [List.mem_singleton] at h
        subst h
        exact hmk
    · simp only [GA4.mark_date_extracted, hc, if_false, hm, if_true, Bool.false_eq_true]
      refine ⟨?_, fun x h => List.mem_append_left _ h,
        fun x h => List.mem_append_left _ h⟩
      rintro ⟨hnd, hcl⟩
      refine ⟨by simp [List.nodup_append, hnd, hd], ?_⟩
      intro x hx
      rcases List.mem_append.mp hx with h | h
      · exact List.mem_append_left _ (hcl x h)
      · simp only [List.mem_singleton] at h
        subst h
        exact List.mem_append_right _ (List.mem_singleton.mpr rfl)

theorem ads_mark_preserves (meta : Ads.Metadata) (d : Date) :
    (Ads.ledgerInvariant meta → Ads.ledgerInvariant (Ads.mark_date_extracted meta d)) ∧
    meta.extracted_dates ⊆ (Ads.mark_date_extracted meta d).extracted_dates ∧
    meta.extracted_months ⊆ (Ads.mark_date_extracted meta d).extracted_months := by
  by_cases hc : meta.extracted_dates.contains d = true
  · have heq : Ads.mark_date_extracted meta d = meta := by
      unfold Ads.mark_date_extracted
      rw [if_pos hc]
    rw [heq]
    exact ⟨id, fun x h => h, fun x h => h⟩
  · have hd : d ∉ meta.extracted_dates := by
      intro hmem
      exact hc (by simpa using hmem)
    by_cases hm : meta.extracted_months.contains (monthKey d) = true
    · have hmk : monthKey d ∈ meta.extracted_months := by simpa using hm
      simp only [Ads.mark_date_extracted, hc, if_false, hm, if_true, Bool.false_eq_true]
      refine ⟨?_, fun x h => List.mem_append_left _ h, fun x h => h⟩
      rintro ⟨hnd, hcl⟩
      refine ⟨by simp [List.nodup_append, hnd, hd], ?_⟩
      intro x hx
      rcases List.mem_append.mp hx with h | h
      · exact hcl x h
      · simp only [List.mem_singleton] at h
        subst h
        exact hmk
    · simp only [Ads.mark_date_extracted, hc, if_false, hm, if_true, Bool.false_eq_true]
      refine ⟨?_, fun x h => List.mem_append_left _ h,
        fun x h => List.mem_append_left _ h⟩
      rintro ⟨hnd, hcl⟩
      refine ⟨by simp [List.nodup_append, hnd, hd], ?_⟩
      intro x hx
      rcases List.mem_append.mp hx with h | h
      · exact List.mem_append_left _ (hcl x h)
      · simp only [List.mem_singleton] at h
        subst h
        exact List.mem_append_right _ (List.mem_singleton.mpr rfl)

theorem ga4_foldl_mark_invariant (ds : List Date) (meta : GA4.Metadata)
    (h : GA4.ledgerInvariant meta) :
    GA4.ledgerInvariant (ds.foldl GA4.mark_date_extracted meta) := by
  induction ds generalizing meta with
  | nil => exact h
  | cons d ds ih =>
    exact ih _ ((ga4_mark_preserves meta d).1 h)

theorem ads_foldl_mark_invariant (ds : List Date) (meta : Ads.Metadata)
    (h : Ads.ledgerInvariant meta) :
    Ads.ledgerInvariant (ds.foldl Ads.mark_date_extracted meta) := by
  induction ds generalizing meta with
  | nil => exact h
  | cons d ds ih =>
    exact ih _ ((ads_mark_preserves meta d).1 h)

/-- C10: after any sequence of `mark_date_extracted` calls starting from the
fresh ledger, `extracted_dates` has no duplicates and every extracted date's
`YYYYMM` month is in `extracted_months`; each single call only grows both
lists.  Holds for GA4 and Google Ads alike. -/
theorem C10_mark_date_extracted_invariant :
    (∀ (ds : List Date),
      GA4.ledgerInvariant (ds.foldl GA4.mark_date_extracted GA4.freshMetadata) ∧
      Ads.ledgerInvariant (ds.foldl Ads.mark_date_extracted Ads.freshMetadata)) ∧
    (∀ (metaG : GA4.Metadata) (d : Date),
      metaG.extracted_dates ⊆ (GA4.mark_date_extracted metaG d).extracted_dates ∧
      metaG.extracted_months ⊆ (GA4.mark_date_extracted metaG d).extracted_months) ∧
    (∀ (metaA : Ads.Metadata) (d : Date),
      metaA.extracted_dates ⊆ (Ads.mark_date_extracted metaA d).extracted_dates ∧
      metaA.extracted_months ⊆ (Ads.mark_date_extracted metaA d).extracted_months) := by
  refine ⟨?_, ?_, ?_⟩
  · intro ds
    constructor
    · exact ga4_foldl_mark_invariant ds GA4.freshMetadata ⟨List.nodup_nil, by simp [GA4.freshMetadata]⟩
    · exact ads_foldl_mark_invariant ds Ads.freshMetadata ⟨List.nodup_nil, by simp [Ads.freshMetadata]⟩
  · intro metaG d
    exact (ga4_mark_preserves metaG d).2
  · intro metaA d
    exact (ads_mark_preserves metaA d).2

/-- C9: calling `write_parquet` on a partition that already holds at least one
file, with `force_overwrite = false`, is a no-op: it returns `false` and the
whole filesystem — in particular every existing file of the partition — is
unchanged. -/
theorem C9_write_parquet_skip {α : Type} (fs : FS α) (base table : String)
    (report_month : Nat) (df : List α) (files : List (List α))
    (hex : fs (base, table, report_month) = some files) (hne : files ≠ []) :
    write_parquet fs base table report_month df false = (fs, false) := by
  unfold write_parquet
  have : ((fs (base, table, report_month)).getD []).isEmpty = false := by
    rw [hex]
    cases files with
    | nil => exact absurd rfl hne
    | cons a l => rfl
  simp [this]

/-- Witness for C9: a GA4 partition for 2025-01 already holding one file. -/
theorem C9_write_parquet_skip_witness :
    (fun q => if q = ("./data_repo/ga4", "analytics_events_final", 202501)
        then some [[(⟨2025, 1, 1⟩ : Date)]] else none)
          ("./data_repo/ga4", "analytics_events_final", 202501) =
        some [[(⟨2025, 1, 1⟩ : Date)]] ∧
    write_parquet
        (fun q => if q = ("./data_repo/ga4", "analytics_events_final", 202501)
          then some [[(⟨2025, 1, 1⟩ : Date)]] else none)
        "./data_repo/ga4" "analytics_events_final" 202501 [⟨2025, 1, 2⟩] false =
      ((fun q => if q = ("./data_repo/ga4", "analytics_events_final", 202501)
          then some [[(⟨2025, 1, 1⟩ : Date)]] else none), false) :=
  ⟨by simp,
   C9_write_parquet_skip
     (fun q => if q = ("./data_repo/ga4", "analytics_events_final", 202501)
       then some [[(⟨2025, 1, 1⟩ : Date)]] else none)
     "./data_repo/ga4" "analytics_events_final" 202501 [⟨2025, 1, 2⟩]
     [[(⟨2025, 1, 1⟩ : Date)]] (by simp) (by simp)⟩

theorem ga4_mark_mem_self (meta : GA4.Metadata) (d : Date) :
    d ∈ (GA4.mark_date_extracted meta d).extracted_dates := by
  by_cases hc : meta.extracted_dates.contains d = true
  · have heq : GA4.mark_date_extracted meta d = meta := by
      unfold GA4.mark_date_extracted
      rw [if_pos hc]
    rw [heq]
    simpa using hc
  · simp only [GA4.mark_date_extracted, hc, Bool.false_eq_true, if_false]
    split <;> simp

theorem ads_mark_mem_self (meta : Ads.Metadata) (d : Date) :
    d ∈ (Ads.mark_date_extracted meta d).extracted_dates := by
  by_cases hc : meta.extracted_dates.contains d = true
  · have heq : Ads.mark_date_extracted meta d = meta := by
      unfold Ads.mark_date_extracted
      rw [if_pos hc]
    rw [heq]
    simpa using hc
  · simp only [Ads.mark_date_extracted, hc, Bool.false_eq_true, if_false]
    split <;> simp

theorem ga4_foldl_mark_subset (batch : List Date) (meta : GA4.Metadata) :
    meta.extracted_dates ⊆ (batch.foldl GA4.mark_date_extracted meta).extracted_dates := by
  induction batch generalizing meta with
  | nil => exact fun x h => h
  | cons d ds ih =>
    exact fun x h => ih (GA4.mark_date_extracted meta d) ((ga4_mark_preserves meta d).2.1 h)

theorem ads_foldl_mark_subset (batch : List Date) (meta : Ads.Metadata) :
    meta.extracted_dates ⊆ (batch.foldl Ads.mark_date_extracted meta).extracted_dates := by
  induction batch generalizing meta with
  | nil => exact fun x h => h
  | cons d ds ih =>
    exact fun x h => ih (Ads.mark_date_extracted meta d) ((ads_mark_preserves meta d).2.1 h)

theorem ga4_mem_foldl_mark (batch : List Date) (meta : GA4.Metadata) (d : Date)
    (hd : d ∈ batch) :
    d ∈ (batch.foldl GA4.mark_date_extracted meta).extracted_dates := by
  induction batch generalizing meta with
  | nil => simp at hd
  | cons b bs ih =>
    rcases List.mem_cons.mp hd with h | h
    · subst h
      exact ga4_foldl_mark_subset bs (GA4.mark_date_extracted meta d)
        (ga4_mark_mem_self meta d)
    · exact ih (GA4.mark_date_extracted meta b) h

theorem ads_mem_foldl_mark (batch : List Date) (meta : Ads.Metadata) (d : Date)
    (hd : d ∈ batch) :
    d ∈ (batch.foldl Ads.mark_date_extracted meta).extracted_dates := by
  induction batch generalizing meta with
  | nil => simp at hd
  | cons b bs ih =>
    rcases List.mem_cons.mp hd with h | h
    · subst h
      exact ads_foldl_mark_subset bs (Ads.mark_date_extracted meta d)
        (ads_mark_mem_self meta d)
    · exact ih (Ads.mark_date_extracted meta b) h

/-- C2 counterexample: a GA4 `extract_and_save` run whose single batch's fetch
succeeds with an empty row set does NOT mark the batch's date as extracted
(the source `continue`s on `df.empty` without touching the ledger), refuting
the claim for GA4.  Only 2025-03-01 is available, the fetch returns `ok []`,
and after the run the date is still unextracted. -/
theorem C2_counterexample :
    GA4.is_date_extracted
      (GA4.extract_and_save "smart" 7 none ⟨2025, 3, 3⟩
        (fun d => d == ⟨2025, 3, 1⟩) (fun _ _ => .ok []) "t"
        GA4.freshMetadata (fun _ => none)).2.1
      ⟨2025, 3, 1⟩ = false := by decide

/-- C2 as amended: on a successful fetch returning an empty row set, only the
Google Ads driver marks every unit of the batch as extracted (and still counts
them in `dates_processed`); the GA4 driver skips the batch leaving summary,
ledger and filesystem untouched, and the Search Console driver counts the
month as skipped without marking it. -/
theorem C2_empty_fetch_amended :
    (∀ (today : Date) (fetch : Date → Date → Except String (List Date))
        (st : Ads.Stats × Ads.Metadata × FS Date) (batch : List Date),
      fetch (batch.headD ⟨1, 1, 1⟩) (batch.getLastD ⟨1, 1, 1⟩) = .ok [] →
      (∀ d ∈ batch, d ∈ (Ads.processBatch today fetch st batch).2.1.extracted_dates) ∧
      (Ads.processBatch today fetch st batch).1.dates_processed =
        st.1.dates_processed + batch.length) ∧
    (∀ (today : Date) (fetch : Date → Date → Except Unit (List Date))
        (st : GA4.Stats × GA4.Metadata × FS Date) (batch : List Date),
      fetch (batch.headD ⟨1, 1, 1⟩) (batch.getLastD ⟨1, 1, 1⟩) = .ok [] →
      GA4.processBatch today fetch st batch = st) ∧
    (∀ (today : Date) (pages : Date → Date → Nat → Except Unit (List SC.Row))
        (pageFuel : Nat) (st : SC.Stats × SC.Metadata × FS SC.Row) (month : Date × Bool),
      SC.get_search_analytics
          (pages month.1
            (if dateLe (prevDate (SC.addOneMonth month.1)) today
             then prevDate (SC.addOneMonth month.1) else today))
          pageFuel = [] →
      SC.processMonth today pages pageFuel st month =
        ({ st.1 with months_skipped := st.1.months_skipped + 1 }, st.2.1, st.2.2)) := by
  refine ⟨?_, ?_, ?_⟩
  · rintro today fetch ⟨stats, meta, fs⟩ batch hfetch
    unfold Ads.processBatch Ads.get_performance_data_batch
    rw [hfetch]
    simp only [List.isEmpty_nil, if_true]
    constructor
    · intro d hd
      exact ads_mem_foldl_mark batch _ d hd
    · trivial
  · rintro today fetch ⟨stats, meta, fs⟩ batch hfetch
    unfold GA4.processBatch GA4.extract_date_range
    rw [hfetch]
    rfl
  · rintro today pages pageFuel ⟨stats, meta, fs⟩ ⟨ms, cur⟩ hdf
    simp only at hdf
    unfold SC.processMonth
    simp only [hdf, List.isEmpty_nil, if_true]


/-- C3 counterexample: a Search Console `extract_and_save` smart run at
2025-06-10 (lookback 2) where every fetch returns one row and the 2025-05
partition is already populated: the 2025-05 write is skipped
(`force_overwrite` false, partition non-empty) and — contrary to the claim —
the month is NOT marked extracted despite its successful, non-empty fetch. -/
theorem C3_counterexample :
    SC.is_month_extracted
      (SC.extract_and_save "smart" 2 ⟨2025, 6, 10⟩
        (fun _ _ _ => .ok [(0 : SC.Row)]) 5 "t" SC.freshMetadata
        (fun q => if q = ("./data_repo/search_console", "search_console_final", 202505)
          then some [[(1 : SC.Row)]] else none)).2.1
      202505 = false := by decide

/-- C3 as amended: after a non-empty fetch the GA4 and Google Ads drivers mark
every unit of the batch as extracted regardless of whether the partitioned
writer wrote new data (the write result only feeds `months_updated`); the
Search Console driver instead marks the month only when the writer wrote — a
non-current month whose partition already has data is left unmarked. -/
theorem C3_mark_vs_write_amended :
    (∀ (today : Date) (fetch : Date → Date → Except Unit (List Date))
        (st : GA4.Stats × GA4.Metadata × FS Date) (batch : List Date),
      GA4.extract_date_range fetch (batch.headD ⟨1, 1, 1⟩) (batch.getLastD ⟨1, 1, 1⟩) ≠ [] →
      ∀ d ∈ batch, d ∈ (GA4.processBatch today fetch st batch).2.1.extracted_dates) ∧
    (∀ (today : Date) (fetch : Date → Date → Except String (List Date))
        (st : Ads.Stats × Ads.Metadata × FS Date) (batch : List Date),
      ∀ d ∈ batch, d ∈ (Ads.processBatch today fetch st batch).2.1.extracted_dates) ∧
    (∀ (today : Date) (pages : Date → Date → Nat → Except Unit (List SC.Row))
        (pageFuel : Nat) (st : SC.Stats × SC.Metadata × FS SC.Row)
        (ms : Date) (files : List (List SC.Row)),
      st.2.2 (SC.OUTPUT_PATH, "search_console_final", monthKey ms) = some files →
      files ≠ [] →
      (SC.processMonth today pages pageFuel st (ms, false)).2.1 = st.2.1) := by
  refine ⟨?_, ?_, ?_⟩
  · intro today fetch st batch hdf d hd
    have hne : (GA4.extract_date_range fetch (batch.headD ⟨1, 1, 1⟩)
        (batch.getLastD ⟨1, 1, 1⟩)).isEmpty = false := by
      cases h : GA4.extract_date_range fetch (batch.headD ⟨1, 1, 1⟩)
          (batch.getLastD ⟨1, 1, 1⟩) with
      | nil => exact absurd h hdf
      | cons a l => rfl
    unfold GA4.processBatch
    simp only [hne, Bool.false_eq_true, if_false]
    exact ga4_mem_foldl_mark batch st.2.1 d hd
  · intro today fetch st batch d hd
    simp only [Ads.processBatch]
    split
    · exact ads_mem_foldl_mark batch _ d hd
    · exact ads_mem_foldl_mark batch _ d hd
  · intro today pages pageFuel st ms files hfs hne
    simp only [SC.processMonth]
    split <;>
      (split
       · rfl
       · rw [C9_write_parquet_skip st.2.2 SC.OUTPUT_PATH "search_console_final"
           (monthKey ms) _ files hfs hne]
         rfl)

/-- Witness for C3 at a concrete input: a single-date GA4 batch whose fetch
returns one row is marked even though the target partition is already
populated (so the writer writes nothing). -/
theorem C3_mark_vs_write_amended_witness :
    (⟨2025, 3, 1⟩ : Date) ∈
      (GA4.processBatch ⟨2025, 6, 10⟩ (fun _ _ => .ok [⟨2025, 3, 1⟩])
        (⟨"success", 0, 0, [], []⟩, GA4.freshMetadata,
          fun q => if q = ("./data_repo/ga4", "analytics_events_final", 202503)
            then some [[(⟨2025, 3, 5⟩ : Date)]] else none)
        [⟨2025, 3, 1⟩]).2.1.extracted_dates :=
  C3_mark_vs_write_amended.1 ⟨2025, 6, 10⟩ (fun _ _ => .ok [⟨2025, 3, 1⟩])
    (⟨"success", 0, 0, [], []⟩, GA4.freshMetadata,
      fun q => if q = ("./data_repo/ga4", "analytics_events_final", 202503)
        then some [[(⟨2025, 3, 5⟩ : Date)]] else none)
    [⟨2025, 3, 1⟩] (by decide) ⟨2025, 3, 1⟩ (by decide)

/-- Witness for C2 at a concrete input: a GA4 batch whose fetch succeeds with
an empty row set leaves the whole driver state unchanged. -/
theorem C2_empty_fetch_amended_witness :
    GA4.processBatch ⟨2025, 3, 3⟩ (fun _ _ => .ok [])
        (⟨"success", 0, 0, [], []⟩, GA4.freshMetadata, fun _ => none) [⟨2025, 3, 1⟩] =
      (⟨"success", 0, 0, [], []⟩, GA4.freshMetadata, fun _ => none) :=
  C2_empty_fetch_amended.2.1 ⟨2025, 3, 3⟩ (fun _ _ => .ok [])
    (⟨"success", 0, 0, [], []⟩, GA4.freshMetadata, fun _ => none) [⟨2025, 3, 1⟩] rfl

/-- C7 counterexample: the Search Console planner in `full` mode with
`lookback_months = 2` at 2025-06-15 returns `[2025-06, 2025-05]` — the
current month first, i.e. NOT ascending chronological order. -/
theorem C7_counterexample :
    ¬ List.Sorted dateLe
      ((SC.get_months_to_extract SC.freshMetadata ⟨2025, 6, 15⟩ "full" 2).map Prod.fst) := by
  decide

/-- `SC.subMonthsStart` is strictly antitone in the month offset (as long as the
offset stays within the representable months). -/
theorem SC.subMonthsStart_lt (today : Date) (hm : 1 ≤ today.month) {i j : Nat}
    (hij : i < j) (hj : j ≤ today.year * 12 + today.month - 1) :
    dateLt (SC.subMonthsStart today j) (SC.subMonthsStart today i) := by
  unfold SC.subMonthsStart dateLt
  dsimp only
  omega

/-- Mapping first components of an `if`-shaped `filterMap` yields a sublist of
the corresponding `map`. -/
theorem map_fst_filterMap_ite_sublist {α β γ : Type} (c : α → Bool) (f : α → β)
    (b : α → γ) (l : List α) :
    ((l.filterMap (fun a => if c a then some (f a, b a) else none)).map Prod.fst).Sublist
      (l.map f) := by
  induction l with
  | nil => exact List.Sublist.refl _
  | cons a t ih =>
    rw [List.filterMap_cons]
    by_cases hca : c a = true
    · rw [hca]
      exact List.Sublist.cons₂ _ ih
    · simp only [hca, Bool.false_eq_true, if_false]
      exact List.Sublist.cons _ ih

/-- C7 as amended: the GA4 and Google Ads planners return ascending
chronological order for every mode and every ledger state (they end in
`sorted(...)`); the Search Console planner does not — in `full` and `smart`
modes it returns months newest-first, i.e. strictly descending (provided the
lookback stays within representable months). -/
theorem C7_planner_order_amended :
    (∀ (meta : GA4.Metadata) (avail : Date → Bool) (today : Date) (mode : String)
        (end_date : Option Date),
      List.Sorted dateLe (GA4.get_dates_to_extract meta avail today mode end_date)) ∧
    (∀ (meta : Ads.Metadata) (today : Date) (mode : String) (end_date : Option Date),
      List.Sorted dateLe (Ads.get_dates_to_extract meta today mode end_date)) ∧
    (∀ (meta : SC.Metadata) (today : Date) (lookback_months : Nat),
      1 ≤ today.month → lookback_months ≤ today.year * 12 + today.month →
      List.Sorted (fun a b => dateLt b a)
        ((SC.get_months_to_extract meta today "full" lookback_months).map Prod.fst) ∧
      List.Sorted (fun a b => dateLt b a)
        ((SC.get_months_to_extract meta today "smart" lookback_months).map Prod.fst)) := by
  refine ⟨?_, ?_, ?_⟩
  · intro meta avail today mode end_date
    unfold GA4.get_dates_to_extract
    exact List.sorted_insertionSort dateLe _
  · intro meta today mode end_date
    unfold Ads.get_dates_to_extract
    exact List.sorted_insertionSort dateLe _
  · intro meta today lookback_months hm hlb
    have hfull : List.Sorted (fun a b => dateLt b a)
        ((List.range lookback_months).map (fun i => SC.subMonthsStart today i)) := by
      rw [List.Sorted, List.pairwise_map]
      refine (List.pairwise_lt_range lookback_months).imp_of_mem ?_
      intro i j hi hj hij
      exact SC.subMonthsStart_lt today hm hij
        (by
          have := List.mem_range.mp hj
          omega)
    constructor
    · have : (SC.get_months_to_extract meta today "full" lookback_months).map Prod.fst =
          (List.range lookback_months).map (fun i => SC.subMonthsStart today i) := by
        unfold SC.get_months_to_extract
        simp [List.map_map]
      rw [this]
      exact hfull
    · have hsub : ((SC.get_months_to_extract meta today "smart" lookback_months).map
          Prod.fst).Sublist
            ((List.range lookback_months).map (fun i => SC.subMonthsStart today i)) := by
        unfold SC.get_months_to_extract
        simp only [String.reduceEq, if_false, if_true]
        exact map_fst_filterMap_ite_sublist _ _ _ _
      exact List.Pairwise.sublist hsub hfull

/-- Witness for C7 at concrete inputs: the Search Console `full`/`smart`
planners at 2025-06-15 with lookback 2 are strictly descending. -/
theorem C7_planner_order_amended_witness :
    1 ≤ (⟨2025, 6, 15⟩ : Date).month ∧
    List.Sorted (fun a b => dateLt b a)
      ((SC.get_months_to_extract SC.freshMetadata ⟨2025, 6, 15⟩ "full" 2).map Prod.fst) :=
  ⟨by decide,
   (C7_planner_order_amended.2.2 SC.freshMetadata ⟨2025, 6, 15⟩ 2 (by decide) (by decide)).1⟩


/-- Core truncation behaviour of the pagination loop: a full first page
followed by a failing second request returns exactly the first page. -/
theorem get_search_analytics_truncates (pages : Nat → Except Unit (List SC.Row))
    (f : Nat) (rows1 : List SC.Row) (h0 : pages 0 = .ok rows1)
    (hlen : rows1.length = SC.row_limit) (h2 : pages SC.row_limit = .error ()) :
    SC.get_search_analytics pages (f + 2) = rows1 := by
  have hne : rows1.isEmpty = false := by
    cases rows1 with
    | nil => simp [SC.row_limit] at hlen
    | cons a l => rfl
  have hlt : ¬(rows1.length < SC.row_limit) := by
    rw [hlen]
    exact Nat.lt_irrefl _
  have h2' : pages (0 + rows1.length) = .error () := by
    rw [Nat.zero_add, hlen]
    exact h2
  unfold SC.get_search_analytics SC.get_search_analytics_go
  rw [h0]
  simp only [hne, Bool.false_eq_true, if_false]
  rw [if_neg hlt]
  unfold SC.get_search_analytics_go
  rw [h2']
  rfl

/-- The pagination loop returns `[]` when the very first request fails. -/
theorem get_search_analytics_error_first (pages : Nat → Except Unit (List SC.Row))
    (f : Nat) (h0 : pages 0 = .error ()) :
    SC.get_search_analytics pages (f + 1) = [] := by
  unfold SC.get_search_analytics SC.get_search_analytics_go
  rw [h0]

/-- C4 counterexample: a paginated Search Console fetch whose first request
returns a full page (`row_limit` rows) and whose second request fails returns
the first page only — a silently truncated partial row set, with no error
indication. -/
theorem C4_counterexample :
    SC.get_search_analytics
        (fun s => if s == 0 then .ok (List.replicate SC.row_limit (0 : SC.Row))
          else .error ()) 10 =
      List.replicate SC.row_limit (0 : SC.Row) :=
  get_search_analytics_truncates _ 8 _ rfl (by simp) rfl

/-- C4 as amended: `get_search_analytics` never signals failure.  An API error
on the first request yields an empty row set, and an API error after a full
first page yields exactly that first page — a silently truncated partial
result rather than "the whole range's rows or an error". -/
theorem C4_pagination_amended :
    (∀ (pages : Nat → Except Unit (List SC.Row)) (fuel : Nat),
      1 ≤ fuel → pages 0 = .error () →
      SC.get_search_analytics pages fuel = []) ∧
    (∀ (pages : Nat → Except Unit (List SC.Row)) (fuel : Nat) (rows1 : List SC.Row),
      2 ≤ fuel → pages 0 = .ok rows1 → rows1.length = SC.row_limit →
      pages SC.row_limit = .error () →
      SC.get_search_analytics pages fuel = rows1) := by
  constructor
  · intro pages fuel hfuel h0
    obtain ⟨f, rfl⟩ : ∃ f, fuel = f + 1 := ⟨fuel - 1, by omega⟩
    exact get_search_analytics_error_first pages f h0
  · intro pages fuel rows1 hfuel h0 hlen h2
    obtain ⟨f, rfl⟩ : ∃ f, fuel = f + 2 := ⟨fuel - 2, by omega⟩
    exact get_search_analytics_truncates pages f rows1 h0 hlen h2

/-- Witness for C4: a concrete oracle erroring on its second request, with a
full first page, returns exactly the first page. -/
theorem C4_pagination_amended_witness :
    (fun s => if s == 0 then .ok (List.replicate SC.row_limit (1 : SC.Row))
        else .error ()) 0 = Except.ok (List.replicate SC.row_limit (1 : SC.Row)) ∧
    SC.get_search_analytics
        (fun s => if s == 0 then .ok (List.replicate SC.row_limit (1 : SC.Row))
          else .error ()) 3 =
      List.replicate SC.row_limit (1 : SC.Row) :=
  ⟨rfl,
   C4_pagination_amended.2
     (fun s => if s == 0 then .ok (List.replicate SC.row_limit (1 : SC.Row))
       else .error ())
     3 (List.replicate SC.row_limit (1 : SC.Row)) (by omega) rfl (by simp) rfl⟩

/-- C8 counterexample: a metadata file containing the valid JSON `5` makes the
GA4 `_load_metadata` raise `TypeError` (`'extracted_dates' in 5`), so for such
content it neither returns a fresh ledger nor avoids raising. -/
theorem C8_counterexample :
    GA4.load_metadata (some (.ok (.num 5))) = .error .typeError := rfl

/-- C8 as amended: `_load_metadata` returns the fresh ledger when the file is
missing or its content fails JSON parsing, and (GA4) when a date string fails
to parse (`ValueError` caught); but a parsed JSON object without an
`extracted_dates` member is returned as-is rather than replaced by a fresh
ledger (likewise any parsed value for the Search Console loader, which never
converts), and a non-iterable JSON value such as a bare number raises an
uncaught `TypeError` in the GA4 loader. -/
theorem C8_load_metadata_amended :
    (GA4.load_metadata none = .ok GA4.freshMetadataJson) ∧
    (GA4.load_metadata (some (.error ())) = .ok GA4.freshMetadataJson) ∧
    (∀ n : Int, GA4.load_metadata (some (.ok (.num n))) = .error .typeError) ∧
    (∀ kvs, kvs.any (fun kv => kv.1 == "extracted_dates") = false →
      GA4.load_metadata (some (.ok (.obj kvs))) = .ok (.obj kvs)) ∧
    (∀ kvs, kvs.any (fun kv => kv.1 == "extracted_dates") = true →
      pyLookup kvs "extracted_dates" = .arr [.str "not-a-date"] →
      GA4.load_metadata (some (.ok (.obj kvs))) = .ok GA4.freshMetadataJson) ∧
    (SC.load_metadata none = .ok SC.freshMetadataJson) ∧
    (SC.load_metadata (some (.error ())) = .ok SC.freshMetadataJson) ∧
    (∀ j, SC.load_metadata (some (.ok j)) = .ok j) := by
  refine ⟨rfl, rfl, fun n => rfl, ?_, ?_, rfl, rfl, fun j => rfl⟩
  · intro kvs hk
    unfold GA4.load_metadata pyContainsKey
    dsimp only
    rw [hk]
  · intro kvs hk hv
    unfold GA4.load_metadata pyContainsKey
    dsimp only
    rw [hk, hv]
    rfl

/-- Witness for C8: the empty JSON object is returned unchanged (it is valid
JSON but not a fresh ledger — it lacks `data_start_date`). -/
theorem C8_load_metadata_amended_witness :
    (List.any [] (fun kv : String × PyVal => kv.1 == "extracted_dates") = false) ∧
    GA4.load_metadata (some (.ok (.obj []))) = .ok (.obj []) :=
  ⟨rfl, C8_load_metadata_amended.2.2.2.1 [] rfl⟩

theorem ga4_update_time_extracted (meta : GA4.Metadata) (t now : String) :
    (GA4.update_extraction_time meta t now).extracted_dates = meta.extracted_dates := by
  unfold GA4.update_extraction_time
  split
  · rfl
  · split <;> rfl

theorem ads_update_time_extracted (meta : Ads.Metadata) (t now : String) :
    (Ads.update_extraction_time meta t now).extracted_dates = meta.extracted_dates := by
  unfold Ads.update_extraction_time
  split
  · rfl
  · split <;> rfl

theorem Ads.get_performance_extracted (fetch : Date → Date → Except String (List Date))
    (meta : Ads.Metadata) (s e : Date) :
    (Ads.get_performance_data_batch fetch meta s e).2.extracted_dates =
      meta.extracted_dates := by
  unfold Ads.get_performance_data_batch
  split <;> rfl

/-- Metadata monotonicity of one GA4 batch step. -/
theorem ga4_processBatch_extracted_subset (today : Date)
    (fetch : Date → Date → Except Unit (List Date))
    (st : GA4.Stats × GA4.Metadata × FS Date) (batch : List Date) :
    st.2.1.extracted_dates ⊆ (GA4.processBatch today fetch st batch).2.1.extracted_dates := by
  simp only [GA4.processBatch]
  split
  · exact fun x h => h
  · exact ga4_foldl_mark_subset batch st.2.1

/-- Metadata monotonicity of one Google Ads batch step. -/
theorem ads_processBatch_extracted_subset (today : Date)
    (fetch : Date → Date → Except String (List Date))
    (st : Ads.Stats × Ads.Metadata × FS Date) (batch : List Date) :
    st.2.1.extracted_dates ⊆ (Ads.processBatch today fetch st batch).2.1.extracted_dates := by
  simp only [Ads.processBatch]
  split <;>
    (intro x hx
     apply ads_foldl_mark_subset
     rw [Ads.get_performance_extracted]
     exact hx)

/-- After the GA4 batch fold, previously extracted dates persist and every
date of every batch whose fetch returned rows is marked. -/
theorem ga4_foldl_processBatch_marks (today : Date)
    (fetch : Date → Date → Except Unit (List Date)) :
    ∀ (batches : List (List Date)) (st : GA4.Stats × GA4.Metadata × FS Date),
      st.2.1.extracted_dates ⊆
        (batches.foldl (GA4.processBatch today fetch) st).2.1.extracted_dates ∧
      (∀ b ∈ batches,
        GA4.extract_date_range fetch (b.headD ⟨1, 1, 1⟩) (b.getLastD ⟨1, 1, 1⟩) ≠ [] →
        ∀ d ∈ b,
          d ∈ (batches.foldl (GA4.processBatch today fetch) st).2.1.extracted_dates) := by
  intro batches
  induction batches with
  | nil =>
    intro st
    exact ⟨fun x h => h, by simp⟩
  | cons b bs ih =>
    intro st
    constructor
    · exact fun x hx =>
        (ih (GA4.processBatch today fetch st b)).1
          (ga4_processBatch_extracted_subset today fetch st b hx)
    · intro c hc hdf d hd
      rcases List.mem_cons.mp hc with h | h
      · subst h
        refine (ih (GA4.processBatch today fetch st c)).1 ?_
        have hne : (GA4.extract_date_range fetch (c.headD ⟨1, 1, 1⟩)
            (c.getLastD ⟨1, 1, 1⟩)).isEmpty = false := by
          cases hE : GA4.extract_date_range fetch (c.headD ⟨1, 1, 1⟩)
              (c.getLastD ⟨1, 1, 1⟩) with
          | nil => exact absurd hE hdf
          | cons a l => rfl
        simp only [GA4.processBatch, hne, Bool.false_eq_true, if_false]
        exact ga4_mem_foldl_mark c st.2.1 d hd
      · exact (ih (GA4.processBatch today fetch st b)).2 c h hdf d hd

/-- After the Google Ads batch fold every date of every batch is marked,
fetch outcome irrelevant. -/
theorem ads_foldl_processBatch_marks (today : Date)
    (fetch : Date → Date → Except String (List Date)) :
    ∀ (batches : List (List Date)) (st : Ads.Stats × Ads.Metadata × FS Date),
      st.2.1.extracted_dates ⊆
        (batches.foldl (Ads.processBatch today fetch) st).2.1.extracted_dates ∧
      (∀ b ∈ batches, ∀ d ∈ b,
        d ∈ (batches.foldl (Ads.processBatch today fetch) st).2.1.extracted_dates) := by
  intro batches
  induction batches with
  | nil =>
    intro st
    exact ⟨fun x h => h, by simp⟩
  | cons b bs ih =>
    intro st
    constructor
    · exact fun x hx =>
        (ih (Ads.processBatch today fetch st b)).1
          (ads_processBatch_extracted_subset today fetch st b hx)
    · intro c hc d hd
      rcases List.mem_cons.mp hc with h | h
      · subst h
        refine (ih (Ads.processBatch today fetch st c)).1 ?_
        simp only [Ads.processBatch]
        split <;> exact ads_mem_foldl_mark c _ d hd
      · exact (ih (Ads.processBatch today fetch st b)).2 c h d hd

/-- Every element of a list lands in some chunk. -/
theorem chunksGo_covers {α : Type} (bs : Nat) (hbs : 1 ≤ bs) :
    ∀ (fuel : Nat) (l : List α), l.length ≤ fuel →
      ∀ x ∈ l, ∃ b ∈ chunksGo bs fuel l, x ∈ b := by
  intro fuel
  induction fuel with
  | zero =>
    intro l hl x hx
    rw [Nat.le_zero, List.length_eq_zero] at hl
    subst hl
    simp at hx
  | succ f ih =>
    intro l hl x hx
    cases l with
    | nil => simp at hx
    | cons a t =>
      rw [show chunksGo bs (f + 1) (a :: t) =
        (a :: t).take bs :: chunksGo bs f ((a :: t).drop bs) from rfl]
      have hsplit : x ∈ (a :: t).take bs ∨ x ∈ (a :: t).drop bs := by
        rw [← List.mem_append, List.take_append_drop]
        exact hx
      rcases hsplit with h | h
      · exact ⟨(a :: t).take bs, List.mem_cons_self _ _, h⟩
      · have hlen : ((a :: t).drop bs).length ≤ f := by
          rw [List.length_drop, List.length_cons]
          simp only [List.length_cons] at hl
          omega
        obtain ⟨b, hb, hxb⟩ := ih ((a :: t).drop bs) hlen x h
        exact ⟨b, List.mem_cons_of_mem _ hb, hxb⟩

theorem chunksOf_covers {α : Type} (bs : Nat) (hbs : 1 ≤ bs) (l : List α) :
    ∀ x ∈ l, ∃ b ∈ chunksOf bs l, x ∈ b :=
  chunksGo_covers bs hbs l.length l (Nat.le_refl _)

/-- An empty plan short-circuits `GA4.extract_and_save` into the
`up_to_date` summary with untouched state. -/
theorem ga4_extract_and_save_up_to_date (mode : String) (bs : Nat)
    (end_date : Option Date) (today : Date) (avail : Date → Bool)
    (fetch : Date → Date → Except Unit (List Date)) (now : String)
    (meta : GA4.Metadata) (fs : FS Date)
    (h : GA4.get_dates_to_extract meta avail today mode end_date = []) :
    GA4.extract_and_save mode bs end_date today avail fetch now meta fs =
      (⟨"up_to_date", 0, 0, [], []⟩, meta, fs) := by
  unfold GA4.extract_and_save
  rw [h]
  rfl

/-- An empty plan short-circuits `Ads.extract_and_save` likewise. -/
theorem ads_extract_and_save_up_to_date (mode : String) (bs : Nat)
    (end_date : Option Date) (today : Date)
    (fetch : Date → Date → Except String (List Date)) (now : String)
    (meta : Ads.Metadata) (fs : FS Date)
    (h : Ads.get_dates_to_extract meta today mode end_date = []) :
    Ads.extract_and_save mode bs end_date today fetch now meta fs =
      (⟨"up_to_date", 0, 0, [], 0, []⟩, meta, fs) := by
  unfold Ads.extract_and_save
  rw [h]
  rfl

/-- After a GA4 smart run whose every batch fetched rows, the smart planner
finds nothing left to do. -/
theorem ga4_second_plan_empty (meta : GA4.Metadata) (fs : FS Date)
    (avail : Date → Bool) (today : Date) (end_date : Option Date)
    (fetch : Date → Date → Except Unit (List Date)) (now : String) (bs : Nat)
    (hbs : 1 ≤ bs)
    (hfe : ∀ b ∈ chunksOf bs (GA4.get_dates_to_extract meta avail today "smart" end_date),
      GA4.extract_date_range fetch (b.headD ⟨1, 1, 1⟩) (b.getLastD ⟨1, 1, 1⟩) ≠ []) :
    GA4.get_dates_to_extract
      (GA4.extract_and_save "smart" bs end_date today avail fetch now meta fs).2.1
      avail today "smart" end_date = [] := by
  by_cases hp : GA4.get_dates_to_extract meta avail today "smart" end_date = []
  · rw [ga4_extract_and_save_up_to_date "smart" bs end_date today avail fetch now meta fs hp]
    exact hp
  · have hne : (GA4.get_dates_to_extract meta avail today "smart" end_date).isEmpty = false := by
      cases h : GA4.get_dates_to_extract meta avail today "smart" end_date with
      | nil => exact absurd h hp
      | cons a l => rfl
    have hmeta2 : (GA4.extract_and_save "smart" bs end_date today avail fetch now
          meta fs).2.1.extracted_dates =
        ((chunksOf bs (GA4.get_dates_to_extract meta avail today "smart" end_date)).foldl
          (GA4.processBatch today fetch)
          (⟨"success", 0, 0, [], []⟩, meta, fs)).2.1.extracted_dates := by
      unfold GA4.extract_and_save
      simp only [hne, Bool.false_eq_true, if_false]
      exact ga4_update_time_extracted _ _ _
    show List.insertionSort dateLe
      ((GA4.get_available_dates avail GA4.DATA_START_DATE (end_date.getD today)).filter
        (fun d => !GA4.is_date_extracted
          (GA4.extract_and_save "smart" bs end_date today avail fetch now meta fs).2.1 d)) = []
    have hfilter : (GA4.get_available_dates avail GA4.DATA_START_DATE
        (end_date.getD today)).filter
        (fun d => !GA4.is_date_extracted
          (GA4.extract_and_save "smart" bs end_date today avail fetch now meta fs).2.1 d)
        = [] := by
      rw [List.filter_eq_nil_iff]
      intro x hx
      have hxin : x ∈ (GA4.extract_and_save "smart" bs end_date today avail fetch now
          meta fs).2.1.extracted_dates := by
        rw [hmeta2]
        by_cases hm : x ∈ meta.extracted_dates
        · exact (ga4_foldl_processBatch_marks today fetch _ _).1 hm
        · have hpx : x ∈ GA4.get_dates_to_extract meta avail today "smart" end_date := by
            show x ∈ List.insertionSort dateLe
              ((GA4.get_available_dates avail GA4.DATA_START_DATE (end_date.getD today)).filter
                (fun d => !GA4.is_date_extracted meta d))
            refine (List.perm_insertionSort dateLe _).mem_iff.mpr ?_
            refine List.mem_filter.mpr ⟨hx, ?_⟩
            simpa [GA4.is_date_extracted] using hm
          obtain ⟨b, hb, hxb⟩ := chunksOf_covers bs hbs _ x hpx
          exact (ga4_foldl_processBatch_marks today fetch _ _).2 b hb (hfe b hb) x hxb
      simpa [GA4.is_date_extracted] using hxin
    rw [hfilter]
    rfl

/-- After any Google Ads smart run (batch size ≥ 1), the smart planner finds
nothing left to do — every planned date was marked, fetch outcomes
notwithstanding. -/
theorem ads_second_plan_empty (meta : Ads.Metadata) (fs : FS Date)
    (today : Date) (end_date : Option Date)
    (fetch : Date → Date → Except String (List Date)) (now : String) (bs : Nat)
    (hbs : 1 ≤ bs) :
    Ads.get_dates_to_extract
      (Ads.extract_and_save "smart" bs end_date today fetch now meta fs).2.1
      today "smart" end_date = [] := by
  by_cases hp : Ads.get_dates_to_extract meta today "smart" end_date = []
  · rw [ads_extract_and_save_up_to_date "smart" bs end_date today fetch now meta fs hp]
    exact hp
  · have hne : (Ads.get_dates_to_extract meta today "smart" end_date).isEmpty = false := by
      cases h : Ads.get_dates_to_extract meta today "smart" end_date with
      | nil => exact absurd h hp
      | cons a l => rfl
    have hmeta2 : (Ads.extract_and_save "smart" bs end_date today fetch now
          meta fs).2.1.extracted_dates =
        ((chunksOf bs (Ads.get_dates_to_extract meta today "smart" end_date)).foldl
          (Ads.processBatch today fetch)
          (⟨"success", 0, 0, [], 0, []⟩, meta, fs)).2.1.extracted_dates := by
      unfold Ads.extract_and_save
      simp only [hne, Bool.false_eq_true, if_false]
      exact ads_update_time_extracted _ _ _
    show List.insertionSort dateLe
      (Ads.get_missing_dates
        (Ads.extract_and_save "smart" bs end_date today fetch now meta fs).2.1
        Ads.DATA_START_DATE (end_date.getD (subDays 3 today))) = []
    have hmiss : Ads.get_missing_dates
        (Ads.extract_and_save "smart" bs end_date today fetch now meta fs).2.1
        Ads.DATA_START_DATE (end_date.getD (subDays 3 today)) = [] := by
      rw [List.eq_nil_iff_forall_not_mem]
      intro x hxmem
      unfold Ads.get_missing_dates at hxmem
      obtain ⟨hxv, hge, hle2, hpx⟩ :=
        ((@dateListGo_spec (fun d => !Ads.is_date_extracted
            (Ads.extract_and_save "smart" bs end_date today fetch now meta fs).2.1 d)
          (end_date.getD (subDays 3 today))
          (dateFuel (end_date.getD (subDays 3 today)) Ads.DATA_START_DATE)
          Ads.DATA_START_DATE
          (by decide) (Nat.le_refl _)).1 x).mp hxmem
      have hxnot : x ∉ (Ads.extract_and_save "smart" bs end_date today fetch now
          meta fs).2.1.extracted_dates := by
        intro hc
        have : Ads.is_date_extracted
            (Ads.extract_and_save "smart" bs end_date today fetch now meta fs).2.1 x = true := by
          simpa [Ads.is_date_extracted] using hc
        rw [this] at hpx
        simp at hpx
      have hmnot : x ∉ meta.extracted_dates := by
        intro hc
        refine hxnot ?_
        rw [hmeta2]
        exact (ads_foldl_processBatch_marks today fetch _ _).1 hc
      have hx1 : x ∈ Ads.get_missing_dates meta Ads.DATA_START_DATE
          (end_date.getD (subDays 3 today)) := by
        unfold Ads.get_missing_dates
        refine ((@dateListGo_spec (fun d => !Ads.is_date_extracted meta d)
          (end_date.getD (subDays 3 today))
          (dateFuel (end_date.getD (subDays 3 today)) Ads.DATA_START_DATE)
          Ads.DATA_START_DATE
          (by decide) (Nat.le_refl _)).1 x).mpr ⟨hxv, hge, hle2, ?_⟩
        simpa [Ads.is_date_extracted] using hmnot
      have hxplan : x ∈ Ads.get_dates_to_extract meta today "smart" end_date := by
        show x ∈ List.insertionSort dateLe
          (Ads.get_missing_dates meta Ads.DATA_START_DATE (end_date.getD (subDays 3 today)))
        exact (List.perm_insertionSort dateLe _).mem_iff.mpr hx1
      obtain ⟨b, hb, hxb⟩ := chunksOf_covers bs hbs _ x hxplan
      refine hxnot ?_
      rw [hmeta2]
      exact (ads_foldl_processBatch_marks today fetch _ _).2 b hb x hxb
    rw [hmiss]
    rfl

/-- C6 counterexample: two consecutive Search Console smart runs (today
2025-06-10, lookback 2, fetch always returning one row, starting from a fresh
ledger).  The second run is NOT `up_to_date` with 0 processed: the smart
planner always re-includes the current month, which is fetched and rewritten,
so the second run reports `success` with `months_processed = 1`. -/
theorem C6_counterexample :
    (SC.extract_and_save "smart" 2 ⟨2025, 6, 10⟩ (fun _ _ _ => .ok [(0 : SC.Row)]) 5 "t2"
      (SC.extract_and_save "smart" 2 ⟨2025, 6, 10⟩ (fun _ _ _ => .ok [(0 : SC.Row)]) 5 "t1"
        SC.freshMetadata (fun _ => none)).2.1
      (SC.extract_and_save "smart" 2 ⟨2025, 6, 10⟩ (fun _ _ _ => .ok [(0 : SC.Row)]) 5 "t1"
        SC.freshMetadata (fun _ => none)).2.2).1.status = "success" ∧
    (SC.extract_and_save "smart" 2 ⟨2025, 6, 10⟩ (fun _ _ _ => .ok [(0 : SC.Row)]) 5 "t2"
      (SC.extract_and_save "smart" 2 ⟨2025, 6, 10⟩ (fun _ _ _ => .ok [(0 : SC.Row)]) 5 "t1"
        SC.freshMetadata (fun _ => none)).2.1
      (SC.extract_and_save "smart" 2 ⟨2025, 6, 10⟩ (fun _ _ _ => .ok [(0 : SC.Row)]) 5 "t1"
        SC.freshMetadata (fun _ => none)).2.2).1.months_processed = 1 := by
  constructor
  · decide
  · decide

/-- C6 as amended: running `smart` twice against the same source state is
idempotent for GA4 — provided every batch of the first run fetched a
non-empty row set (GA4 does not mark empty batches) — and for Google Ads
unconditionally (it marks even failed/empty batches): the second run plans
nothing, performs no fetch, and returns `status = up_to_date` with 0 units
processed and unchanged state.  The Search Console driver does not satisfy
this (see the counterexample): its smart planner always re-includes the
current month. -/
theorem C6_smart_idempotent_amended :
    (∀ (meta : GA4.Metadata) (fs : FS Date) (avail : Date → Bool) (today : Date)
        (end_date : Option Date) (fetch : Date → Date → Except Unit (List Date))
        (now now2 : String) (bs bs2 : Nat), 1 ≤ bs →
      (∀ b ∈ chunksOf bs (GA4.get_dates_to_extract meta avail today "smart" end_date),
        GA4.extract_date_range fetch (b.headD ⟨1, 1, 1⟩) (b.getLastD ⟨1, 1, 1⟩) ≠ []) →
      GA4.get_dates_to_extract
          (GA4.extract_and_save "smart" bs end_date today avail fetch now meta fs).2.1
          avail today "smart" end_date = [] ∧
      GA4.extract_and_save "smart" bs2 end_date today avail fetch now2
          (GA4.extract_and_save "smart" bs end_date today avail fetch now meta fs).2.1
          (GA4.extract_and_save "smart" bs end_date today avail fetch now meta fs).2.2 =
        (⟨"up_to_date", 0, 0, [], []⟩,
         (GA4.extract_and_save "smart" bs end_date today avail fetch now meta fs).2.1,
         (GA4.extract_and_save "smart" bs end_date today avail fetch now meta fs).2.2)) ∧
    (∀ (meta : Ads.Metadata) (fs : FS Date) (today : Date) (end_date : Option Date)
        (fetch : Date → Date → Except String (List Date)) (now now2 : String)
        (bs bs2 : Nat), 1 ≤ bs →
      Ads.get_dates_to_extract
          (Ads.extract_and_save "smart" bs end_date today fetch now meta fs).2.1
          today "smart" end_date = [] ∧
      Ads.extract_and_save "smart" bs2 end_date today fetch now2
          (Ads.extract_and_save "smart" bs end_date today fetch now meta fs).2.1
          (Ads.extract_and_save "smart" bs end_date today fetch now meta fs).2.2 =
        (⟨"up_to_date", 0, 0, [], 0, []⟩,
         (Ads.extract_and_save "smart" bs end_date today fetch now meta fs).2.1,
         (Ads.extract_and_save "smart" bs end_date today fetch now meta fs).2.2)) := by
  constructor
  · intro meta fs avail today end_date fetch now now2 bs bs2 hbs hfe
    have h2 := ga4_second_plan_empty meta fs avail today end_date fetch now bs hbs hfe
    exact ⟨h2, ga4_extract_and_save_up_to_date "smart" bs2 end_date today avail fetch now2 _ _ h2⟩
  · intro meta fs today end_date fetch now now2 bs bs2 hbs
    have h2 := ads_second_plan_empty meta fs today end_date fetch now bs hbs
    exact ⟨h2, ads_extract_and_save_up_to_date "smart" bs2 end_date today fetch now2 _ _ h2⟩

/-- Witness for C6: a concrete GA4 smart run (one available date, fetch
returning one row) followed by a second run that is `up_to_date`. -/
theorem C6_smart_idempotent_amended_witness :
    (∀ b ∈ chunksOf 2 (GA4.get_dates_to_extract GA4.freshMetadata
        (fun d => d == ⟨2025, 3, 1⟩) ⟨2025, 3, 3⟩ "smart" none),
      GA4.extract_date_range (fun s _ => .ok [s]) (b.headD ⟨1, 1, 1⟩)
        (b.getLastD ⟨1, 1, 1⟩) ≠ []) ∧
    GA4.get_dates_to_extract
        (GA4.extract_and_save "smart" 2 none ⟨2025, 3, 3⟩ (fun d => d == ⟨2025, 3, 1⟩)
          (fun s _ => .ok [s]) "t1" GA4.freshMetadata (fun _ => none)).2.1
        (fun d => d == ⟨2025, 3, 1⟩) ⟨2025, 3, 3⟩ "smart" none = [] :=
  ⟨by decide,
   (C6_smart_idempotent_amended.1 GA4.freshMetadata (fun _ => none)
      (fun d => d == ⟨2025, 3, 1⟩) ⟨2025, 3, 3⟩ none (fun s _ => .ok [s]) "t1" "t2" 2 2
      (by omega) (by decide)).1⟩

/-- C1 counterexample: the concrete 3-batch GA4 scenario (dates 2025-03-01 …
2025-03-06 available, `batch_size = 2`, the fetch for the second batch —
starting 2025-03-03 — failing).  The failure is swallowed inside
`extract_date_range`, so the run summary's `errors` list has length 0, not 1
as claimed. -/
theorem C1_counterexample :
    (GA4.extract_and_save "smart" 2 (some ⟨2025, 3, 6⟩) ⟨2025, 3, 10⟩
      (fun d => decide (dateLe ⟨2025, 3, 1⟩ d) && decide (dateLe d ⟨2025, 3, 6⟩))
      (fun s e => if s == ⟨2025, 3, 3⟩ then .error () else .ok [s, e]) "t"
      GA4.freshMetadata (fun _ => none)).1.errors.length = 0 := by
  decide

/-- C1 as amended: in the 3-batch scenario with batch 2's fetch failing, the
adapters swallow the error and return an empty row set, so no entry reaches
the summary's `errors` list (it stays empty).  For GA4 the failed batch is
skipped without marking: `dates_processed = 4` covers batches 1 and 3 only and
the ledger holds exactly their units (2025-03-03/04 missing); subsequent
batches are still processed.  For Google Ads the failed batch's units ARE
marked extracted and counted: `dates_processed = 6` and 2025-01-03 is in the
ledger. -/
theorem C1_partial_batch_amended :
    ((GA4.extract_and_save "smart" 2 (some ⟨2025, 3, 6⟩) ⟨2025, 3, 10⟩
        (fun d => decide (dateLe ⟨2025, 3, 1⟩ d) && decide (dateLe d ⟨2025, 3, 6⟩))
        (fun s e => if s == ⟨2025, 3, 3⟩ then .error () else .ok [s, e]) "t"
        GA4.freshMetadata (fun _ => none)).1.errors = [] ∧
      (GA4.extract_and_save "smart" 2 (some ⟨2025, 3, 6⟩) ⟨2025, 3, 10⟩
        (fun d => decide (dateLe ⟨2025, 3, 1⟩ d) && decide (dateLe d ⟨2025, 3, 6⟩))
        (fun s e => if s == ⟨2025, 3, 3⟩ then .error () else .ok [s, e]) "t"
        GA4.freshMetadata (fun _ => none)).1.dates_processed = 4 ∧
      (GA4.extract_and_save "smart" 2 (some ⟨2025, 3, 6⟩) ⟨2025, 3, 10⟩
        (fun d => decide (dateLe ⟨2025, 3, 1⟩ d) && decide (dateLe d ⟨2025, 3, 6⟩))
        (fun s e => if s == ⟨2025, 3, 3⟩ then .error () else .ok [s, e]) "t"
        GA4.freshMetadata (fun _ => none)).2.1.extracted_dates =
        [⟨2025, 3, 1⟩, ⟨2025, 3, 2⟩, ⟨2025, 3, 5⟩, ⟨2025, 3, 6⟩]) ∧
    ((Ads.extract_and_save "smart" 2 (some ⟨2025, 1, 6⟩) ⟨2025, 1, 10⟩
        (fun s e => if s == ⟨2025, 1, 3⟩ then .error "boom" else .ok [s, e]) "t"
        Ads.freshMetadata (fun _ => none)).1.errors = [] ∧
      (Ads.extract_and_save "smart" 2 (some ⟨2025, 1, 6⟩) ⟨2025, 1, 10⟩
        (fun s e => if s == ⟨2025, 1, 3⟩ then .error "boom" else .ok [s, e]) "t"
        Ads.freshMetadata (fun _ => none)).1.dates_processed = 6 ∧
      Ads.is_date_extracted
        (Ads.extract_and_save "smart" 2 (some ⟨2025, 1, 6⟩) ⟨2025, 1, 10⟩
          (fun s e => if s == ⟨2025, 1, 3⟩ then .error "boom" else .ok [s, e]) "t"
          Ads.freshMetadata (fun _ => none)).2.1
        ⟨2025, 1, 3⟩ = true) := by
  refine ⟨⟨?_, ?_, ?_⟩, ⟨?_, ?_, ?_⟩⟩ <;> decide
